import Mathlib

/-!
Verification development for the proximity-query core of a 2D/3D collision
detection library: the GJK distance algorithm and its Voronoi simplex
(3D build, `gjk.rs` / `voronoi_simplex3.rs`), ray casting on the Minkowski
difference, the 2D Expanding Polytope Algorithm (`epa2.rs`), and the
composite-shape best-first distance visitor
(`distance_composite_shape_shape.rs`).

Scalars are modelled by the real numbers.  External collaborators
(support mappings, the point-to-segment/triangle/tetrahedron projection
primitives, the SIMD AABB operations) are universally quantified
parameters; a few small helpers that live outside the verified slice
(`CSOPoint`, `ray_toi_with_halfspace`, `ccw_face_normal`) are modelled
from their specification and documented as such.
-/

noncomputable section

namespace Parry

/-- Machine epsilon of the `Real` scalar type (f64). -/
def DEFAULT_EPSILON : ℝ := 1 / 2 ^ 52

/-- The largest finite scalar (`Real::max_value()` for f64), used by the
source as an initial upper bound. -/
def REAL_MAX : ℝ := (2 ^ 53 - 1) * 2 ^ 971

/-- The absolute tolerance used by the GJK algorithm (`gjk.rs`, `eps_tol`):
`DEFAULT_EPSILON * 10`. -/
def eps_tol : ℝ := DEFAULT_EPSILON * 10

/-- The relative convergence tolerance `sqrt(eps_tol)` of `gjk.rs`. -/
def eps_rel : ℝ := Real.sqrt eps_tol

/-- The dimension of the ambient space for the 3D build (`math::DIM`). -/
def DIM : ℕ := 3

/-! ### 3D vectors -/

/-- A 3D vector over the real scalar field. -/
structure Vec3 where
  x : ℝ
  y : ℝ
  z : ℝ

namespace Vec3

instance : Zero Vec3 := ⟨⟨0, 0, 0⟩⟩
instance : Add Vec3 := ⟨fun a b => ⟨a.x + b.x, a.y + b.y, a.z + b.z⟩⟩
instance : Neg Vec3 := ⟨fun a => ⟨-a.x, -a.y, -a.z⟩⟩
instance : Sub Vec3 := ⟨fun a b => ⟨a.x - b.x, a.y - b.y, a.z - b.z⟩⟩
instance : SMul ℝ Vec3 := ⟨fun r a => ⟨r * a.x, r * a.y, r * a.z⟩⟩

/-- Euclidean inner product. -/
def dot (a b : Vec3) : ℝ := a.x * b.x + a.y * b.y + a.z * b.z

/-- Cross product. -/
def cross (a b : Vec3) : Vec3 :=
  ⟨a.y * b.z - a.z * b.y, a.z * b.x - a.x * b.z, a.x * b.y - a.y * b.x⟩

/-- Squared Euclidean norm. -/
def normSq (v : Vec3) : ℝ := dot v v

/-- Euclidean norm. -/
def norm (v : Vec3) : ℝ := Real.sqrt (normSq v)

/-- `v.normalize()` of nalgebra: division by the norm. -/
def normalize (v : Vec3) : Vec3 := (norm v)⁻¹ • v

/-- `Vector::x_axis()`. -/
def xAxis : Vec3 := ⟨1, 0, 0⟩

end Vec3

/-- nalgebra `Unit::try_new_and_get`: returns the normalized vector and its
norm when the norm exceeds the threshold, `None` otherwise. -/
def tryNewAndGet (v : Vec3) (minNorm : ℝ) : Option (Vec3 × ℝ) :=
  if Vec3.norm v > minNorm then some ((Vec3.norm v)⁻¹ • v, Vec3.norm v) else none

/-- nalgebra `Unit::try_new`. -/
def tryNew (v : Vec3) (minNorm : ℝ) : Option Vec3 :=
  (tryNewAndGet v minNorm).map Prod.fst

/-! ### CSO points (3D)

Modelled from the spec: a `CSOPoint` is a triple `(p, p1, p2)` where `p`
lies in the configuration-space obstacle, `p1` in the first shape's local
frame and `p2` in the second shape's; it supports vector subtraction and
translation.  `CSOPoint::from_shapes` (the support query producing them)
is kept abstract as the support-mapping parameter of the algorithms. -/

/-- Modelled from the spec: a point of the configuration space obstacle
together with the two shape-local witness points that produced it. -/
structure CSOPoint where
  point : Vec3
  orig1 : Vec3
  orig2 : Vec3

namespace CSOPoint

/-- Modelled from the spec: vector subtraction between two CSO points. -/
def sub (a b : CSOPoint) : Vec3 := a.point - b.point

/-- Modelled from the spec: translation of a CSO point (shifts the
CSO-space coordinate, keeping the shape-local witnesses). -/
def translate (p : CSOPoint) (t : Vec3) : CSOPoint := ⟨p.point + t, p.orig1, p.orig2⟩

/-- Modelled from the spec: `CSOPoint::single_point` wraps a raw CSO-space
point, with the point itself as the first witness. -/
def singlePoint (p : Vec3) : CSOPoint := ⟨p, p, 0⟩

/-- `CSOPoint::origin()`. -/
def origin : CSOPoint := ⟨0, 0, 0⟩

end CSOPoint

/-! ### The Voronoi simplex (`voronoi_simplex3.rs`) -/

/-- Result locations of the external point-to-segment projection primitive. -/
inductive SegmentPointLocation where
  | OnVertex (i : Fin 2)
  | OnEdge (c0 c1 : ℝ)

/-- Result locations of the external point-to-triangle projection primitive. -/
inductive TrianglePointLocation where
  | OnVertex (i : Fin 3)
  | OnEdge (i : Fin 3) (c0 c1 : ℝ)
  | OnFace (i : Fin 3) (c0 c1 c2 : ℝ)
  | OnSolid

/-- Result locations of the external point-to-tetrahedron projection primitive. -/
inductive TetrahedronPointLocation where
  | OnVertex (i : Fin 4)
  | OnEdge (i : Fin 6) (c0 c1 : ℝ)
  | OnFace (i : Fin 4) (c0 c1 c2 : ℝ)
  | OnSolid

/-- The external geometric projection primitives consumed by the simplex
(`project_local_point_and_get_location` on `Segment`, `Triangle` and
`Tetrahedron`); the spec treats them as out-of-scope collaborators, so they
are parameters of the development. Each returns the projection of the
origin and a location tag. -/
structure ProjPrims where
  segProj : Vec3 → Vec3 → Vec3 × SegmentPointLocation
  triProj : Vec3 → Vec3 → Vec3 → Vec3 × TrianglePointLocation
  tetProj : Vec3 → Vec3 → Vec3 → Vec3 → Vec3 × TetrahedronPointLocation

/-- The Voronoi simplex state: up to four CSO points, the barycentric
coordinates of the latest origin projection, and the pre-reduction mirror. -/
structure VoronoiSimplex where
  prev_vertices : Fin 4 → Fin 4
  prev_proj : Fin 3 → ℝ
  prev_dim : ℕ
  vertices : Fin 4 → CSOPoint
  proj : Fin 3 → ℝ
  dim : ℕ

namespace VoronoiSimplex

/-- `VoronoiSimplex::new()`. -/
def new : VoronoiSimplex :=
  ⟨fun i => i, fun _ => 0, 0, fun _ => CSOPoint.origin, fun _ => 0, 0⟩

/-- `VoronoiSimplex::swap`: swaps two entries of both the vertex array and
the previous-vertex index array. -/
def swap (s : VoronoiSimplex) (i j : Fin 4) : VoronoiSimplex :=
  { s with
    vertices := fun k => s.vertices (Equiv.swap i j k)
    prev_vertices := fun k => s.prev_vertices (Equiv.swap i j k) }

/-- `VoronoiSimplex::reset`. -/
def reset (s : VoronoiSimplex) (pt : CSOPoint) : VoronoiSimplex :=
  { s with dim := 0, prev_dim := 0, vertices := Function.update s.vertices 0 pt }

/-- `VoronoiSimplex::add_point`: saves the current state into the
`prev_*` mirror, refuses points within tolerance of the affine feature
spanned by the current vertices, else grows the simplex.  (The source
marks the `dim ≥ 3` case unreachable; it is totalized by refusing.) -/
def addPoint (s : VoronoiSimplex) (pt : CSOPoint) : VoronoiSimplex × Bool :=
  let s1 : VoronoiSimplex :=
    { s with prev_dim := s.dim, prev_proj := s.proj, prev_vertices := fun i => i }
  if s.dim = 0 then
    if Vec3.normSq (CSOPoint.sub (s.vertices 0) pt) < eps_tol then (s1, false)
    else ({ s1 with dim := 1, vertices := Function.update s1.vertices 1 pt }, true)
  else if s.dim = 1 then
    let ab := CSOPoint.sub (s.vertices 1) (s.vertices 0)
    let ac := CSOPoint.sub pt (s.vertices 0)
    if Vec3.normSq (Vec3.cross ab ac) < eps_tol then (s1, false)
    else ({ s1 with dim := 2, vertices := Function.update s1.vertices 2 pt }, true)
  else if s.dim = 2 then
    let ab := CSOPoint.sub (s.vertices 1) (s.vertices 0)
    let ac := CSOPoint.sub (s.vertices 2) (s.vertices 0)
    let ap := CSOPoint.sub pt (s.vertices 0)
    let n := Vec3.normalize (Vec3.cross ab ac)
    if |Vec3.dot n ap| < eps_tol then (s1, false)
    else ({ s1 with dim := 3, vertices := Function.update s1.vertices 3 pt }, true)
  else (s1, false)

/-- `proj_coord(i)`, totalized: reads past the 3-entry array (which panics
in the source) give 0. -/
def projAt (s : VoronoiSimplex) (i : ℕ) : ℝ :=
  if h : i < 3 then s.proj ⟨i, h⟩ else 0

/-- `point(i)`, totalized like `projAt`. -/
def pointAt (s : VoronoiSimplex) (i : ℕ) : CSOPoint :=
  if h : i < 4 then s.vertices ⟨i, h⟩ else CSOPoint.origin

/-- `prev_proj_coord(i)`, totalized like `projAt`. -/
def prevProjAt (s : VoronoiSimplex) (i : ℕ) : ℝ :=
  if h : i < 3 then s.prev_proj ⟨i, h⟩ else 0

/-- `prev_point(i)`: the current vertex array read through the
pre-reduction index permutation; totalized like `projAt`. -/
def prevPointAt (s : VoronoiSimplex) (i : ℕ) : CSOPoint :=
  if h : i < 4 then s.vertices (s.prev_vertices ⟨i, h⟩) else CSOPoint.origin

/-- `project_origin_and_reduce`: delegates to the projection primitive for
the current dimension, then permutes and truncates the simplex to the
Voronoi feature containing the projection, recording the barycentric
coordinates of the projection in the truncated order. -/
def projectOriginAndReduce (prims : ProjPrims) (s : VoronoiSimplex) :
    Vec3 × VoronoiSimplex :=
  if s.dim = 0 then
    ((s.vertices 0).point, { s with proj := Function.update s.proj 0 1 })
  else if s.dim = 1 then
    let pr := prims.segProj (s.vertices 0).point (s.vertices 1).point
    match pr.2 with
    | .OnVertex i =>
      if i = (0 : Fin 2) then
        (pr.1, { s with proj := Function.update s.proj 0 1, dim := 0 })
      else
        let s1 := swap s 0 1
        (pr.1, { s1 with proj := Function.update s1.proj 0 1, dim := 0 })
    | .OnEdge c0 c1 =>
      (pr.1, { s with proj := Function.update (Function.update s.proj 0 c0) 1 c1 })
  else if s.dim = 2 then
    let pr := prims.triProj (s.vertices 0).point (s.vertices 1).point (s.vertices 2).point
    match pr.2 with
    | .OnVertex i =>
      let s1 := swap s 0 (i.castLE (by omega))
      (pr.1, { s1 with proj := Function.update s1.proj 0 1, dim := 0 })
    | .OnEdge i c0 c1 =>
      if i = (0 : Fin 3) then
        (pr.1, { s with proj := Function.update (Function.update s.proj 0 c0) 1 c1, dim := 1 })
      else if i = (1 : Fin 3) then
        let s1 := swap s 0 2
        (pr.1, { s1 with proj := Function.update (Function.update s1.proj 0 c1) 1 c0, dim := 1 })
      else
        let s1 := swap s 1 2
        (pr.1, { s1 with proj := Function.update (Function.update s1.proj 0 c0) 1 c1, dim := 1 })
    | .OnFace _ c0 c1 c2 =>
      (pr.1, { s with proj := ![c0, c1, c2] })
    | .OnSolid => (pr.1, s)
  else
    -- the source asserts `dim == 3` here
    let pr := prims.tetProj (s.vertices 0).point (s.vertices 1).point
      (s.vertices 2).point (s.vertices 3).point
    match pr.2 with
    | .OnVertex i =>
      let s1 := swap s 0 i
      (pr.1, { s1 with proj := Function.update s1.proj 0 1, dim := 0 })
    | .OnEdge i c0 c1 =>
      let s1 :=
        if i = (0 : Fin 6) then s
        else if i = (1 : Fin 6) then swap s 1 2
        else if i = (2 : Fin 6) then swap s 1 3
        else if i = (3 : Fin 6) then swap s 0 2
        else if i = (4 : Fin 6) then swap s 0 3
        else swap (swap s 0 2) 1 3
      if i = (3 : Fin 6) ∨ i = (4 : Fin 6) then
        (pr.1, { s1 with proj := Function.update (Function.update s1.proj 0 c1) 1 c0, dim := 1 })
      else
        (pr.1, { s1 with proj := Function.update (Function.update s1.proj 0 c0) 1 c1, dim := 1 })
    | .OnFace i c0 c1 c2 =>
      if i = (0 : Fin 4) then
        (pr.1, { s with proj := ![c0, c1, c2], dim := 2 })
      else if i = (1 : Fin 4) then
        (pr.1,
          { s with
            vertices := Function.update s.vertices 2 (s.vertices 3)
            proj := ![c0, c1, c2]
            dim := 2 })
      else if i = (2 : Fin 4) then
        (pr.1,
          { s with
            vertices := Function.update s.vertices 1 (s.vertices 3)
            proj := ![c0, c2, c1]
            dim := 2 })
      else
        (pr.1,
          { s with
            vertices := Function.update s.vertices 0 (s.vertices 3)
            proj := ![c2, c0, c1]
            dim := 2 })
    | .OnSolid => (pr.1, s)

/-- `modify_pnts`: applies a function to the vertices `0 ..= dim`. -/
def modifyPnts (s : VoronoiSimplex) (f : CSOPoint → CSOPoint) : VoronoiSimplex :=
  { s with vertices := fun i => if (i : ℕ) ≤ s.dim then f (s.vertices i) else s.vertices i }

end VoronoiSimplex

/-- Sum of a list of vectors (the accumulation loop of `gjk::result`). -/
def sumVec (l : List Vec3) : Vec3 := l.foldl (· + ·) 0

/-- The barycentric coordinates of the projection, summed over the active
range `0 ..= dim` (the quantity of the barycentric-partition invariant). -/
def projListSum (s : VoronoiSimplex) : ℝ :=
  ((List.range (s.dim + 1)).map (VoronoiSimplex.projAt s)).sum

/-- `gjk::result`: reconstructs the witness pair as the barycentric convex
combination of the simplex vertices, from the current state or (when
`prev` is set) from the pre-reduction mirror. -/
def result (s : VoronoiSimplex) (prev : Bool) : Vec3 × Vec3 :=
  if prev then
    (sumVec ((List.range (s.prev_dim + 1)).map fun i =>
        VoronoiSimplex.prevProjAt s i • (VoronoiSimplex.prevPointAt s i).orig1),
     sumVec ((List.range (s.prev_dim + 1)).map fun i =>
        VoronoiSimplex.prevProjAt s i • (VoronoiSimplex.prevPointAt s i).orig2))
  else
    (sumVec ((List.range (s.dim + 1)).map fun i =>
        VoronoiSimplex.projAt s i • (VoronoiSimplex.pointAt s i).orig1),
     sumVec ((List.range (s.dim + 1)).map fun i =>
        VoronoiSimplex.projAt s i • (VoronoiSimplex.pointAt s i).orig2))

/-! ### GJK `closest_points` (`gjk.rs`) -/

/-- Results of the GJK algorithm. -/
inductive GJKResult where
  | Intersection
  | ClosestPoints (p1 p2 : Vec3) (n : Vec3)
  | Proximity (n : Vec3)
  | NoIntersection (n : Vec3)

/-- The loop-carried state of the main GJK iteration: the simplex, the
current projection of the origin on it, the previous iteration's search
direction, and the previous upper bound. -/
structure GState where
  simplex : VoronoiSimplex
  proj : Vec3
  oldDir : Vec3
  maxBound : ℝ

/-- One iteration of the main loop of `gjk::closest_points`.  `support`
abstracts `CSOPoint::from_shapes(pos12, g1, g2, dir)`.  Returns either the
function's result or the next loop state. -/
def gjkStep (prims : ProjPrims) (support : Vec3 → CSOPoint) (maxDist : ℝ)
    (exactDist : Bool) (st : GState) : GJKResult ⊕ GState :=
  match tryNewAndGet (-st.proj) eps_tol with
  | none => .inl .Intersection
  | some (dir, dist) =>
    if dist ≥ st.maxBound then
      -- upper bound inconsistencies: report the previous iteration
      .inl (if exactDist then
        GJKResult.ClosestPoints (result st.simplex true).1 (result st.simplex true).2 st.oldDir
      else GJKResult.Proximity st.oldDir)
    else
      let csoPoint := support dir
      let minBound := -(Vec3.dot dir csoPoint.point)
      if minBound > maxDist then .inl (.NoIntersection dir)
      else if exactDist = false ∧ minBound > 0 ∧ dist ≤ maxDist then
        .inl (.Proximity st.oldDir)
      else if dist - minBound ≤ eps_rel * dist then
        .inl (if exactDist then
          GJKResult.ClosestPoints (result st.simplex false).1 (result st.simplex false).2 dir
        else GJKResult.Proximity dir)
      else
        let ap := st.simplex.addPoint csoPoint
        if ap.2 = false then
          .inl (if exactDist then
            GJKResult.ClosestPoints (result ap.1 false).1 (result ap.1 false).2 dir
          else GJKResult.Proximity dir)
        else
          let pr := VoronoiSimplex.projectOriginAndReduce prims ap.1
          if pr.2.dim = DIM then
            .inl (if minBound ≥ eps_tol then
              (if exactDist then
                GJKResult.ClosestPoints (result pr.2 true).1 (result pr.2 true).2 dir
              else GJKResult.Proximity dir)
            else GJKResult.Intersection)
          else .inr ⟨pr.2, pr.1, dir, dist⟩

/-- Iterates `gjkStep` at most `n` times, stopping at the first exit. -/
def runSteps (prims : ProjPrims) (support : Vec3 → CSOPoint) (maxDist : ℝ)
    (exactDist : Bool) : ℕ → GState → GJKResult ⊕ GState
  | 0, st => .inr st
  | n + 1, st =>
    match gjkStep prims support maxDist exactDist st with
    | .inl r => .inl r
    | .inr st2 => runSteps prims support maxDist exactDist n st2

/-- The main loop of `gjk::closest_points` with the remaining iteration
budget: after an iteration that continues with no budget left (the 100th),
the sentinel `NoIntersection(x̂)` is returned. -/
def gjkLoop (prims : ProjPrims) (support : Vec3 → CSOPoint) (maxDist : ℝ)
    (exactDist : Bool) : ℕ → GState → GJKResult
  | fuel, st =>
    match gjkStep prims support maxDist exactDist st with
    | .inl r => r
    | .inr st2 =>
      match fuel with
      | 0 => .NoIntersection Vec3.xAxis
      | n + 1 => gjkLoop prims support maxDist exactDist n st2

/-- The pre-loop part of `gjk::closest_points`: initial projection and
reduction, extraction of the initial direction (origin on the simplex
means `Intersection`), initial upper bound `Real::max_value()`. -/
def gjkInit (prims : ProjPrims) (simplex : VoronoiSimplex) : GJKResult ⊕ GState :=
  let pr := VoronoiSimplex.projectOriginAndReduce prims simplex
  match tryNew pr.1 0 with
  | none => .inl .Intersection
  | some projDir => .inr ⟨pr.2, pr.1, -projDir, REAL_MAX⟩

/-- `gjk::closest_points`, with the support mapping and projection
primitives as parameters. -/
def closestPoints (prims : ProjPrims) (support : Vec3 → CSOPoint) (maxDist : ℝ)
    (exactDist : Bool) (simplex : VoronoiSimplex) : GJKResult :=
  match gjkInit prims simplex with
  | .inl r => r
  | .inr st => gjkLoop prims support maxDist exactDist 99 st

/-! ### Ray casting on the Minkowski difference (`gjk.rs`) -/

/-- A ray with an origin and an (unnormalized) direction. -/
structure Ray where
  origin : Vec3
  dir : Vec3

/-- Modelled from the spec: `query::details::ray_toi_with_halfspace` clips
the ray against the halfspace through `center` with normal `normal`;
`None` exactly when the clip parameter would be negative (or the ray is
parallel to the plane). -/
def rayToiWithHalfspace (center normal : Vec3) (ray : Ray) : Option ℝ :=
  let denom := Vec3.dot normal ray.dir
  if denom = 0 then none
  else
    let t := Vec3.dot normal (center - ray.origin) / denom
    if 0 ≤ t then some t else none

/-- The loop-carried state of `minkowski_ray_cast`: the simplex, the
current origin projection, the lower bound `ltoi`, the moving ray origin,
the last certified normal, the upper bound and the `last_chance` flag. -/
structure RState where
  simplex : VoronoiSimplex
  proj : Vec3
  ltoi : ℝ
  origin : Vec3
  ldir : Vec3
  maxBound : ℝ
  lastChance : Bool

/-- The part of a `minkowski_ray_cast` iteration after the ray has been
clipped against the support halfspace: the `last_chance` exit, the
convergence exit, point insertion and the full-dimension exits.  Returns
the result (with the simplex at the moment of return) or the next state. -/
def rayPostClip (prims : ProjPrims) (rayLength : ℝ) (dir : Vec3)
    (supportPoint : CSOPoint) (st : RState) :
    ((Option (ℝ × Vec3)) × VoronoiSimplex) ⊕ RState :=
  if st.lastChance then .inl (none, st.simplex)
  else
    let minBound := -(Vec3.dot dir (supportPoint.point - st.origin))
    if st.maxBound - minBound ≤ eps_rel * st.maxBound then .inl (none, st.simplex)
    else
      let simplex3 := (st.simplex.addPoint (supportPoint.translate (-st.origin))).1
      let pr := VoronoiSimplex.projectOriginAndReduce prims simplex3
      if pr.2.dim = DIM then
        .inl (if minBound ≥ eps_tol then (none, pr.2)
              else (some (st.ltoi / rayLength, st.ldir), pr.2))
      else .inr { st with simplex := pr.2, proj := pr.1 }

/-- One iteration of the main loop of `minkowski_ray_cast`. -/
def rayStep (support : Vec3 → CSOPoint) (prims : ProjPrims) (rayDirUnit : Vec3)
    (rayLength maxToi : ℝ) (st : RState) :
    ((Option (ℝ × Vec3)) × VoronoiSimplex) ⊕ RState :=
  match tryNewAndGet (-st.proj) eps_tol with
  | none => .inl (some (st.ltoi / rayLength, st.ldir), st.simplex)
  | some (dir, dist) =>
    let lcSupp : CSOPoint × Bool :=
      if dist ≥ st.maxBound then (CSOPoint.singlePoint (st.proj + st.origin), true)
      else (support dir, st.lastChance)
    let supportPoint := lcSupp.1
    let lastChance1 := lcSupp.2
    if lastChance1 = true ∧ st.ltoi > 0 then
      .inl (some (st.ltoi / rayLength, st.ldir), st.simplex)
    else
      match rayToiWithHalfspace supportPoint.point dir ⟨st.origin, rayDirUnit⟩ with
      | some t =>
        if Vec3.dot dir rayDirUnit < 0 ∧ t > 0 then
          -- new lower bound: advance the origin
          if (st.ltoi + t) / rayLength > maxToi then .inl (none, st.simplex)
          else
            let shift := t • rayDirUnit
            rayPostClip prims rayLength dir supportPoint
              { simplex := st.simplex.modifyPnts (fun p => p.translate (-shift))
                proj := st.proj
                ltoi := st.ltoi + t
                origin := st.origin + shift
                ldir := dir
                maxBound := REAL_MAX
                lastChance := false }
        else
          rayPostClip prims rayLength dir supportPoint
            { st with maxBound := dist, lastChance := lastChance1 }
      | none =>
        if Vec3.dot dir rayDirUnit > eps_tol then .inl (none, st.simplex)
        else
          rayPostClip prims rayLength dir supportPoint
            { st with maxBound := dist, lastChance := lastChance1 }

/-- The main loop of `minkowski_ray_cast` with its remaining iteration
budget (cap of 100 iterations, returning `None` at the cap). -/
def rayRun (support : Vec3 → CSOPoint) (prims : ProjPrims) (rayDirUnit : Vec3)
    (rayLength maxToi : ℝ) : ℕ → RState → (Option (ℝ × Vec3)) × VoronoiSimplex
  | fuel, st =>
    match rayStep support prims rayDirUnit rayLength maxToi st with
    | .inl r => r
    | .inr st2 =>
      match fuel with
      | 0 => (none, st2.simplex)
      | n + 1 => rayRun support prims rayDirUnit rayLength maxToi n st2

/-- `minkowski_ray_cast`, also returning the final simplex state (the
source mutates the caller's simplex). -/
def minkowskiRayCastS (support : Vec3 → CSOPoint) (prims : ProjPrims) (ray : Ray)
    (maxToi : ℝ) (simplex : VoronoiSimplex) : (Option (ℝ × Vec3)) × VoronoiSimplex :=
  let rayLength := Vec3.norm ray.dir
  -- relative_eq!(ray_length, 0.0)
  if rayLength ≤ DEFAULT_EPSILON then (none, simplex)
  else
    let rayDirUnit := rayLength⁻¹ • ray.dir
    let dir0 := -rayDirUnit
    let supportPoint := support dir0
    let simplex0 := simplex.reset (supportPoint.translate (-ray.origin))
    let pr := VoronoiSimplex.projectOriginAndReduce prims simplex0
    rayRun support prims rayDirUnit rayLength maxToi 99
      ⟨pr.2, pr.1, 0, ray.origin, dir0, REAL_MAX, false⟩

/-- `minkowski_ray_cast` (result only). -/
def minkowskiRayCast (support : Vec3 → CSOPoint) (prims : ProjPrims) (ray : Ray)
    (maxToi : ℝ) (simplex : VoronoiSimplex) : Option (ℝ × Vec3) :=
  (minkowskiRayCastS support prims ray maxToi simplex).1

/-- `gjk::cast_local_ray`: ray cast against a single shape (the second
shape is the constant origin, already folded into `support`). -/
def castLocalRay (support : Vec3 → CSOPoint) (prims : ProjPrims)
    (simplex : VoronoiSimplex) (ray : Ray) (maxToi : ℝ) : Option (ℝ × Vec3) :=
  minkowskiRayCast support prims ray maxToi simplex

/-- `gjk::directional_distance`: ray cast from the origin along `dir`,
with witness points reconstructed from the final simplex when the time of
impact is nonzero. -/
def directionalDistance (support : Vec3 → CSOPoint) (prims : ProjPrims)
    (dirv : Vec3) (simplex : VoronoiSimplex) : Option (ℝ × Vec3 × Vec3 × Vec3) :=
  match minkowskiRayCastS support prims ⟨0, dirv⟩ REAL_MAX simplex with
  | (none, _) => none
  | (some (toi, normal), sf) =>
    let w := if toi ≠ 0 then result sf (decide (sf.dim = DIM)) else (0, 0)
    some (toi, normal, w.1, w.2)

/-! ### Validity predicates for the projection primitives (claim C6) -/

/-- The segment primitive reported a feature with valid convex barycentric
coordinates. -/
def SegLocOK : SegmentPointLocation → Prop
  | .OnVertex _ => True
  | .OnEdge c0 c1 => c0 + c1 = 1 ∧ 0 ≤ c0 ∧ 0 ≤ c1

/-- The triangle primitive reported a (coordinate-bearing) feature with
valid convex barycentric coordinates. -/
def TriLocOK : TrianglePointLocation → Prop
  | .OnVertex _ => True
  | .OnEdge _ c0 c1 => c0 + c1 = 1 ∧ 0 ≤ c0 ∧ 0 ≤ c1
  | .OnFace _ c0 c1 c2 => c0 + c1 + c2 = 1 ∧ 0 ≤ c0 ∧ 0 ≤ c1 ∧ 0 ≤ c2
  | .OnSolid => False

/-- The tetrahedron primitive reported a (coordinate-bearing) feature with
valid convex barycentric coordinates. -/
def TetLocOK : TetrahedronPointLocation → Prop
  | .OnVertex _ => True
  | .OnEdge _ c0 c1 => c0 + c1 = 1 ∧ 0 ≤ c0 ∧ 0 ≤ c1
  | .OnFace _ c0 c1 c2 => c0 + c1 + c2 = 1 ∧ 0 ≤ c0 ∧ 0 ≤ c1 ∧ 0 ≤ c2
  | .OnSolid => False

/-! ## The 2D Expanding Polytope Algorithm (`epa2.rs`) -/

namespace Epa2

/-- A 2D vector over the real scalar field. -/
structure Vec2 where
  x : ℝ
  y : ℝ

namespace Vec2

instance : Zero Vec2 := ⟨⟨0, 0⟩⟩
instance : Add Vec2 := ⟨fun a b => ⟨a.x + b.x, a.y + b.y⟩⟩
instance : Neg Vec2 := ⟨fun a => ⟨-a.x, -a.y⟩⟩
instance : Sub Vec2 := ⟨fun a b => ⟨a.x - b.x, a.y - b.y⟩⟩
instance : SMul ℝ Vec2 := ⟨fun r a => ⟨r * a.x, r * a.y⟩⟩

/-- Euclidean inner product. -/
def dot (a b : Vec2) : ℝ := a.x * b.x + a.y * b.y

/-- The 2D perp product (z component of the cross product). -/
def perp (a b : Vec2) : ℝ := a.x * b.y - a.y * b.x

/-- Squared Euclidean norm. -/
def normSq (v : Vec2) : ℝ := dot v v

/-- Euclidean norm. -/
def norm (v : Vec2) : ℝ := Real.sqrt (normSq v)

/-- `Vector::y_axis()`. -/
def yAxis : Vec2 := ⟨0, 1⟩

end Vec2

/-- nalgebra `Unit::try_new_and_get` in 2D. -/
def tryNewAndGet (v : Vec2) (minNorm : ℝ) : Option (Vec2 × ℝ) :=
  if Vec2.norm v > minNorm then some ((Vec2.norm v)⁻¹ • v, Vec2.norm v) else none

/-- nalgebra `Unit::try_new` in 2D. -/
def tryNew (v : Vec2) (minNorm : ℝ) : Option Vec2 :=
  (tryNewAndGet v minNorm).map Prod.fst

/-- Modelled from the spec: a 2D CSO point (see the 3D `Parry.CSOPoint`). -/
structure CSOPoint where
  point : Vec2
  orig1 : Vec2
  orig2 : Vec2

namespace CSOPoint

/-- Modelled from the spec: vector subtraction between two CSO points. -/
def sub (a b : CSOPoint) : Vec2 := a.point - b.point

/-- `CSOPoint::origin()`. -/
def origin : CSOPoint := ⟨0, 0, 0⟩

end CSOPoint

/-- The EPA-local tolerance `_eps_tol = DEFAULT_EPSILON * 100` of
`epa2::closest_points`. -/
def epaEpsTol : ℝ := DEFAULT_EPSILON * 100

/-- Modelled from the spec: `utils::ccw_face_normal` — the outward unit
normal of the CCW-oriented 2D face `[a, b]` (the edge direction rotated
clockwise, normalized); `None` when the edge is degenerate. -/
def ccwFaceNormal (a b : Vec2) : Option Vec2 :=
  tryNew ⟨b.y - a.y, a.x - b.x⟩ DEFAULT_EPSILON

/-- The file-local `project_origin` of `epa2.rs`: origin projection on the
segment `[a, b]`, `None` when the projection falls outside the segment
(Voronoi region of a vertex) or the segment is degenerate. -/
def projectOrigin (a b : Vec2) : Option (Vec2 × (ℝ × ℝ)) :=
  let ab := b - a
  let ap := -a
  let ab_ap := Vec2.dot ab ap
  let sqnab := Vec2.normSq ab
  if sqnab = 0 then none
  else if ab_ap < -eps_tol ∨ ab_ap > sqnab + eps_tol then none
  else
    let pos := ab_ap / sqnab
    some (a + pos • ab, (1 - pos, pos))

/-- The priority-queue key of EPA faces: a face index and the negated
signed distance of the face to the origin. -/
structure FaceId where
  id : ℕ
  neg_dist : ℝ

/-- `FaceId::new`: refuses construction when the face is on the wrong side
of the origin by more than the GJK tolerance. -/
def FaceId.new (id : ℕ) (neg_dist : ℝ) : Option FaceId :=
  if neg_dist > eps_tol then none else some ⟨id, neg_dist⟩

/-- The `Ord` instance of `FaceId` (`cmp`). -/
def FaceId.cmp (a b : FaceId) : Ordering :=
  if a.neg_dist < b.neg_dist then .lt
  else if a.neg_dist > b.neg_dist then .gt
  else .eq

/-- Model of `BinaryHeap::pop`: removes and returns a maximal element with
respect to `FaceId.cmp` (the heap is modelled as the list of its
elements). -/
def popMax : List FaceId → Option (FaceId × List FaceId)
  | [] => none
  | x :: xs =>
    match popMax xs with
    | none => some (x, [])
    | some (m, rest) =>
      if FaceId.cmp x m = .gt then some (x, xs) else some (m, x :: rest)

/-- List indexing into the EPA vertex buffer (`vertices[i]`; out-of-bounds
reads panic in the source and are totalized to the origin). -/
def vertAt (vs : List CSOPoint) (i : ℕ) : CSOPoint := vs.getD i CSOPoint.origin

/-- An EPA face: a segment of the polytope boundary with its two vertex
indices, outward normal, origin projection, barycentric coordinates of
the projection, and deletion flag. -/
structure Face where
  pts : ℕ × ℕ
  normal : Vec2
  proj : Vec2
  bcoords : ℝ × ℝ
  deleted : Bool

/-- `Face::new_with_proj`: builds the face, marking it deleted (with a
zero normal) when the CCW normal is degenerate. -/
def Face.newWithProj (vertices : List CSOPoint) (proj : Vec2) (bcoords : ℝ × ℝ)
    (pts : ℕ × ℕ) : Face :=
  match ccwFaceNormal (vertAt vertices pts.1).point (vertAt vertices pts.2).point with
  | some n => ⟨pts, n, proj, bcoords, false⟩
  | none => ⟨pts, 0, proj, bcoords, true⟩

/-- `Face::new`: projects the origin on the face; the boolean records
whether the projection lies inside the face. -/
def Face.new (vertices : List CSOPoint) (pts : ℕ × ℕ) : Face × Bool :=
  match projectOrigin (vertAt vertices pts.1).point (vertAt vertices pts.2).point with
  | some (proj, bcoords) => (Face.newWithProj vertices proj bcoords pts, true)
  | none => (Face.newWithProj vertices 0 (0, 0) pts, false)

/-- `Face::closest_points`: the barycentric convex combination of the
face's two vertices, in each shape's local frame. -/
def Face.closestPoints (f : Face) (vertices : List CSOPoint) : Vec2 × Vec2 :=
  (f.bcoords.1 • (vertAt vertices f.pts.1).orig1 + f.bcoords.2 • (vertAt vertices f.pts.2).orig1,
   f.bcoords.1 • (vertAt vertices f.pts.1).orig2 + f.bcoords.2 • (vertAt vertices f.pts.2).orig2)

/-- List indexing into the EPA face buffer, totalized like `vertAt`. -/
def faceAt (fs : List Face) (i : ℕ) : Face :=
  fs.getD i ⟨(0, 0), 0, 0, (0, 0), true⟩

/-- The seed simplex consumed by the 2D EPA: the interface of the 2D
Voronoi simplex that `epa2::closest_points` actually reads (`dimension()`
and `point(i)`). -/
structure SimplexSeed where
  dim : ℕ
  points : ℕ → CSOPoint

/-- The working state of one EPA invocation: vertex buffer, face buffer
and the priority queue. -/
structure Epa2State where
  vertices : List CSOPoint
  faces : List Face
  heap : List FaceId

/-- The triangle orientation step of the `dim = 2` initialization of
`epa2::closest_points`: vertices 1 and 2 are swapped when the signed area
(`dp1.perp(dp2)`) is negative. -/
def init2Verts (p0 p1 p2 : CSOPoint) : List CSOPoint :=
  if Vec2.perp (CSOPoint.sub p1 p0) (CSOPoint.sub p2 p0) < 0 then [p0, p2, p1]
  else [p0, p1, p2]

/-- The `dim = 2` initialization of `epa2::closest_points`: orient the
triangle CCW, build the three edge-faces, push each whose origin
projection is inside (aborting the whole query if `FaceId::new` refuses),
and abort when no projection is inside. -/
def epa2Init2 (p0 p1 p2 : CSOPoint) : Option Epa2State := do
  let verts := init2Verts p0 p1 p2
  let f1 := Face.new verts (0, 1)
  let f2 := Face.new verts (1, 2)
  let f3 := Face.new verts (2, 0)
  let faces := [f1.1, f2.1, f3.1]
  let h1 ← if f1.2 then
      (FaceId.new 0 (-(Vec2.dot f1.1.normal (vertAt verts 0).point))).map (fun a => [a])
    else pure []
  let h2 ← if f2.2 then
      (FaceId.new 1 (-(Vec2.dot f2.1.normal (vertAt verts 1).point))).map (fun a => [a])
    else pure []
  let h3 ← if f3.2 then
      (FaceId.new 2 (-(Vec2.dot f3.1.normal (vertAt verts 2).point))).map (fun a => [a])
    else pure []
  if f1.2 = false ∧ f2.2 = false ∧ f3.2 = false then none
  else some ⟨verts, faces, h1 ++ h2 ++ h3⟩

/-- The lower-dimension (`dim = 1`) initialization of
`epa2::closest_points`: two opposite faces on the segment. -/
def epa2Init1 (p0 p1 : CSOPoint) : Option Epa2State := do
  let verts := [p0, p1]
  let f1 := Face.newWithProj verts 0 (1, 0) (0, 1)
  let f2 := Face.newWithProj verts 0 (1, 0) (1, 0)
  let fid1 ← FaceId.new 0 (Vec2.dot f1.normal (vertAt verts 0).point)
  let fid2 ← FaceId.new 1 (Vec2.dot f2.normal (vertAt verts 1).point)
  some ⟨verts, [f1, f2], [fid1, fid2]⟩

/-- The final answer of the EPA main loop: witnesses of the best face. -/
def finalAnswer (st : Epa2State) (best : FaceId) : Option (Vec2 × Vec2 × Vec2) :=
  let bf := faceAt st.faces best.id
  some ((bf.closestPoints st.vertices).1, (bf.closestPoints st.vertices).2, bf.normal)

/-- Processing of one freshly split face in the EPA main loop: push it to
the heap when its projection is inside (with the early numerical-error
return, and the abort of `FaceId::new`), then append it to the face
buffer. -/
def pushNewFace (st : Epa2State) (currDist : ℝ) (f : Face × Bool) :
    (Option (Vec2 × Vec2 × Vec2)) ⊕ Epa2State :=
  if f.2 then
    let dist := Vec2.dot f.1.normal f.1.proj
    if dist < currDist then
      .inl (some ((f.1.closestPoints st.vertices).1, (f.1.closestPoints st.vertices).2, f.1.normal))
    else if f.1.deleted = false then
      match FaceId.new st.faces.length (-dist) with
      | none => .inl none
      | some fid =>
        .inr { st with heap := st.heap ++ [fid], faces := st.faces ++ [f.1] }
    else .inr { st with faces := st.faces ++ [f.1] }
  else .inr { st with faces := st.faces ++ [f.1] }

/-- The main expansion loop of `epa2::closest_points`.  `fuel` bounds the
number of heap pops (the source is bounded by its 100-iteration cap
together with heap exhaustion, so a large enough budget is behaviorally
identical); `niter` is the source's iteration counter. -/
def epa2Loop (cso : Vec2 → CSOPoint) :
    ℕ → ℝ → FaceId → ℝ → ℕ → Epa2State → Option (Vec2 × Vec2 × Vec2)
  | 0, _, best, _, _, st => finalAnswer st best
  | fuel + 1, maxDist, best, oldDist, niter, st =>
    match popMax st.heap with
    | none => finalAnswer st best
    | some (faceId, heap1) =>
      let st1 := { st with heap := heap1 }
      let face := faceAt st1.faces faceId.id
      if face.deleted then epa2Loop cso fuel maxDist best oldDist niter st1
      else
        let csoPoint := cso face.normal
        let supportPointId := st1.vertices.length
        let st2 := { st1 with vertices := st1.vertices ++ [csoPoint] }
        let candidateMax := Vec2.dot csoPoint.point face.normal
        let bm : FaceId × ℝ :=
          if candidateMax < maxDist then (faceId, candidateMax) else (best, maxDist)
        let currDist := -faceId.neg_dist
        if bm.2 - currDist < epaEpsTol ∨
            (|currDist - oldDist| < DEFAULT_EPSILON ∧ candidateMax < bm.2) then
          finalAnswer st2 bm.1
        else
          let nf1 := Face.new st2.vertices (face.pts.1, supportPointId)
          let nf2 := Face.new st2.vertices (supportPointId, face.pts.2)
          match pushNewFace st2 currDist nf1 with
          | .inl r => r
          | .inr st3 =>
            match pushNewFace st3 currDist nf2 with
            | .inl r => r
            | .inr st4 =>
              if niter + 1 > 100 then finalAnswer st4 bm.1
              else epa2Loop cso fuel maxDist bm.1 currDist (niter + 1) st4

/-- The first tangent-cone loop of the `dim = 0` case of
`epa2::closest_points`: rotate `n` until it leaves the first vertex's
tangent cone (at most 100 rotations). -/
def tangentLoop1 (g1s : Vec2 → Vec2) (orig1 : Vec2) : ℕ → Vec2 → Vec2
  | 0, n => n
  | k + 1, n =>
    match tryNewAndGet (g1s n - orig1) epaEpsTol with
    | some (tangent, _) =>
      if Vec2.dot n tangent < epaEpsTol then n
      else tangentLoop1 g1s orig1 k ⟨-tangent.y, tangent.x⟩
    | none => n

/-- The second tangent-cone loop of the `dim = 0` case of
`epa2::closest_points`, against the second vertex's tangent cone. -/
def tangentLoop2 (g2s : Vec2 → Vec2) (orig2 : Vec2) : ℕ → Vec2 → Vec2
  | 0, n => n
  | k + 1, n =>
    match tryNewAndGet (g2s (-n) - orig2) epaEpsTol with
    | some (tangent, _) =>
      if Vec2.dot (-n) tangent < epaEpsTol then n
      else tangentLoop2 g2s orig2 k ⟨-tangent.y, tangent.x⟩
    | none => n

/-- `EPA::closest_points` in 2D.  `g1s` abstracts
`g1.local_support_point`, `g2s` abstracts `g2.support_point(pos12, ·)`
and `cso` abstracts `CSOPoint::from_shapes(pos12, g1, g2, ·)`. -/
def closestPoints (g1s g2s : Vec2 → Vec2) (cso : Vec2 → CSOPoint)
    (seed : SimplexSeed) : Option (Vec2 × Vec2 × Vec2) :=
  if seed.dim = 0 then
    -- vertex-vertex contact: rotate a normal into both tangent cones
    let orig1 := (seed.points 0).orig1
    let n1 := tangentLoop1 g1s orig1 100 Vec2.yAxis
    let orig2 := (seed.points 0).orig2
    let n2 := tangentLoop2 g2s orig2 100 n1
    some (0, 0, n2)
  else if seed.dim = 2 then
    match epa2Init2 (seed.points 0) (seed.points 1) (seed.points 2) with
    | none => none
    | some st =>
      -- heap.peek().unwrap(): unreachable default when init succeeded
      let best := (((popMax st.heap).map Prod.fst).getD ⟨0, 0⟩)
      epa2Loop cso 210 REAL_MAX best 0 0 st
  else
    match epa2Init1 (seed.points 0) (seed.points 1) with
    | none => none
    | some st =>
      let best := (((popMax st.heap).map Prod.fst).getD ⟨0, 0⟩)
      epa2Loop cso 210 REAL_MAX best 0 0 st

end Epa2

/-! ## The composite-shape distance visitor
(`distance_composite_shape_shape.rs`) -/

namespace Bvh

/-- A bundle of `SIMD_WIDTH = 4` axis-aligned boxes (collaborator type;
only its `mins`/`maxs` lanes are read by the visitor). -/
structure SimdAabb where
  mins : Fin 4 → Vec3
  maxs : Fin 4 → Vec3

/-- The visitor status returned by `visit`. -/
inductive SimdBestFirstVisitStatus (R : Type) where
  | ExitEarly (result : Option R)
  | MaybeContinue (weights : Fin 4 → ℝ) (mask : Fin 4 → Bool) (results : Fin 4 → Option R)

/-- The per-lane leaf loop of
`CompositeShapeAgainstAnyDistanceVisitor::visit`: for each lane whose
AABB-test bit is set and which carries a part id, dispatch the distance
query; a zero distance exits early, otherwise the lane's weight, mask bit
and payload are recorded. -/
def visitLanes (dispatch : ℕ → Option ℝ) (best : ℝ) (active : Fin 4 → Bool)
    (data : Fin 4 → Option ℕ) :
    List (Fin 4) → (Fin 4 → ℝ) → (Fin 4 → Bool) → (Fin 4 → Option (ℕ × ℝ)) →
    SimdBestFirstVisitStatus (ℕ × ℝ)
  | [], w, m, r => .MaybeContinue w m r
  | ii :: rest, w, m, r =>
    match active ii, data ii with
    | true, some pid =>
      match dispatch pid with
      | some d =>
        if d = 0 then .ExitEarly (some (pid, 0))
        else
          visitLanes dispatch best active data rest
            (Function.update w ii d)
            (Function.update m ii (decide (d < best)))
            (Function.update r ii (some (pid, d)))
      | none => visitLanes dispatch best active data rest w m r
    | _, _ => visitLanes dispatch best active data rest w m r

/-- `CompositeShapeAgainstAnyDistanceVisitor::visit`.  `dispatch` abstracts
the dispatcher invocation at a part (`None` is an `Unsupported` error),
`distanceToOrigin` abstracts `SimdAabb::distance_to_origin`. -/
def visit (dispatch : ℕ → Option ℝ) (distanceToOrigin : SimdAabb → Fin 4 → ℝ)
    (msumShift msumMargin : Vec3) (best : ℝ) (bv : SimdAabb)
    (data : Option (Fin 4 → Option ℕ)) : SimdBestFirstVisitStatus (ℕ × ℝ) :=
  let msum : SimdAabb :=
    ⟨fun i => bv.mins i + msumShift + (-msumMargin),
     fun i => bv.maxs i + msumShift + msumMargin⟩
  let dist := distanceToOrigin msum
  let mask := fun i => decide (dist i < best)
  match data with
  | some d =>
    visitLanes dispatch best mask d [0, 1, 2, 3] (fun _ => 0) (fun _ => false) (fun _ => none)
  | none => .MaybeContinue dist mask (fun _ => none)

/-- The weight lanes of a visit status (zero lanes for an early exit). -/
def weightsOf {R : Type} : SimdBestFirstVisitStatus R → (Fin 4 → ℝ)
  | .ExitEarly _ => fun _ => 0
  | .MaybeContinue w _ _ => w

/-- The mask lanes of a visit status. -/
def maskOf {R : Type} : SimdBestFirstVisitStatus R → (Fin 4 → Bool)
  | .ExitEarly _ => fun _ => false
  | .MaybeContinue _ m _ => m

/-- The result lanes of a visit status. -/
def resultsOf {R : Type} : SimdBestFirstVisitStatus R → (Fin 4 → Option R)
  | .ExitEarly _ => fun _ => none
  | .MaybeContinue _ _ r => r

/-- Whether a visit status continues the traversal. -/
def isCont {R : Type} : SimdBestFirstVisitStatus R → Bool
  | .ExitEarly _ => false
  | .MaybeContinue _ _ _ => true

end Bvh

/-- A `visit` lane is active with a part whose dispatched distance is zero
(the early-exit condition of the leaf loop). -/
def Bvh.laneZero (dispatch : ℕ → Option ℝ) (active : Fin 4 → Bool)
    (data : Fin 4 → Option ℕ) (ii : Fin 4) : Prop :=
  active ii = true ∧ ∃ pid, data ii = some pid ∧ dispatch pid = some 0

/-! ### Derived quantities of the `dim = 2` EPA initialization (claim C4) -/

namespace Epa2

/-- The `i`-th edge-face built by the `dim = 2` initialization. -/
def init2Face (vs : List CSOPoint) (i : ℕ) : Face × Bool :=
  Face.new vs (if i = 0 then (0, 1) else if i = 1 then (1, 2) else (2, 0))

/-- Whether the `i`-th edge-face's origin projection lies inside it. -/
def init2Inside (vs : List CSOPoint) (i : ℕ) : Bool := (init2Face vs i).2

/-- The signed distance key pushed for the `i`-th edge-face. -/
def init2Dist (vs : List CSOPoint) (i : ℕ) : ℝ :=
  Vec2.dot (init2Face vs i).1.normal (vertAt vs i).point

/-- The heap contents after a successful `dim = 2` initialization: one
entry per inside-projecting face, in face order. -/
def init2Heap (vs : List CSOPoint) : List FaceId :=
  ((List.range 3).filter (fun i => init2Inside vs i)).map fun i => ⟨i, -(init2Dist vs i)⟩

end Epa2

/-! ### Concrete inputs used by the witnesses and counterexamples -/

/-- Projection primitives that always report the first vertex. -/
def prims0 : ProjPrims :=
  ⟨fun a _ => (a, .OnVertex 0), fun a _ _ => (a, .OnVertex 0),
   fun a _ _ _ => (a, .OnVertex 0)⟩

/-- A constant support mapping at `(-3, 0, 0)`. -/
def suppNeg3 : Vec3 → CSOPoint := fun _ => ⟨⟨-3, 0, 0⟩, 0, 0⟩

/-- A constant support mapping at `(2, 0, 0)`. -/
def suppTwo : Vec3 → CSOPoint := fun _ => ⟨⟨2, 0, 0⟩, 0, 0⟩

/-- The constant-origin support mapping. -/
def suppZero : Vec3 → CSOPoint := fun _ => CSOPoint.origin

/-- A GJK loop state whose next iteration certifies separation. -/
def stC1 : GState := ⟨VoronoiSimplex.new, ⟨-1, 0, 0⟩, ⟨0, 1, 0⟩, 2⟩

/-- A GJK loop state whose next iteration fails to decrease the upper
bound. -/
def stC2 : GState := ⟨VoronoiSimplex.new, ⟨-1, 0, 0⟩, ⟨0, 1, 0⟩, 1 / 2⟩

/-- A ray-cast loop state about to advance its lower bound. -/
def stC7 : RState := ⟨VoronoiSimplex.new, ⟨1, 0, 0⟩, 0, 0, ⟨1, 0, 0⟩, 2, false⟩

/-- The degenerate ray with a zero direction. -/
def rayZero : Ray := ⟨0, 0⟩

/-- A 2D constant-zero support function. -/
def g1s0 : Epa2.Vec2 → Epa2.Vec2 := fun _ => 0

/-- A 2D constant-zero support function. -/
def g2s0 : Epa2.Vec2 → Epa2.Vec2 := fun _ => 0

/-- A 2D constant-origin CSO support mapping. -/
def cso0 : Epa2.Vec2 → Epa2.CSOPoint := fun _ => Epa2.CSOPoint.origin

/-- First vertex of the counterexample triangle for C4. -/
def c4pA : Epa2.CSOPoint := ⟨⟨-1, 5⟩, 0, 0⟩

/-- Second vertex of the counterexample triangle for C4. -/
def c4pB : Epa2.CSOPoint := ⟨⟨1, 5⟩, 0, 0⟩

/-- Third vertex of the counterexample triangle for C4. -/
def c4pC : Epa2.CSOPoint := ⟨⟨0, 6⟩, 0, 0⟩

/-- A dimension-2 seed whose first edge has an inside origin projection
but lies on the wrong side of the origin beyond tolerance. -/
def c4seedX : Epa2.SimplexSeed :=
  ⟨2, fun i => if i = 0 then c4pA else if i = 1 then c4pB else c4pC⟩

/-- First vertex of a CCW triangle strictly containing the origin. -/
def c4wA : Epa2.CSOPoint := ⟨⟨-1, -1⟩, 0, 0⟩

/-- Second vertex of a CCW triangle strictly containing the origin. -/
def c4wB : Epa2.CSOPoint := ⟨⟨1, -1⟩, 0, 0⟩

/-- Third vertex of a CCW triangle strictly containing the origin. -/
def c4wC : Epa2.CSOPoint := ⟨⟨0, 2⟩, 0, 0⟩

/-- A dimension-2 seed triangle strictly containing the origin. -/
def c4seedW : Epa2.SimplexSeed :=
  ⟨2, fun i => if i = 0 then c4wA else if i = 1 then c4wB else c4wC⟩

/-- A dimension-0 seed simplex. -/
def seedDim0 : Epa2.SimplexSeed := ⟨0, fun _ => Epa2.CSOPoint.origin⟩

/-- A sample priority-queue content for the C9 witness. -/
def heap9 : List Epa2.FaceId := [⟨0, -1⟩, ⟨1, -3⟩, ⟨2, -2⟩]

/-- A dispatcher for the C8 witness: parts 7 and 9 report nonzero
distances, part 8 is unsupported. -/
def dispatch0 : ℕ → Option ℝ :=
  fun pid => if pid = 7 then some 5 else if pid = 9 then some 2 else none

/-- A dispatcher for the C8 witness reporting distance zero exactly for
part 7. -/
def dispatchZ : ℕ → Option ℝ := fun pid => if pid = 7 then some 0 else some 5

/-- Leaf data for the C8 witness. -/
def data0 : Fin 4 → Option ℕ :=
  fun i => if i = 0 then some 7 else if i = 1 then some 8
    else if i = 3 then some 9 else none

/-- A constant lane-distance collaborator for the C8 witness. -/
def dto0 : Bvh.SimdAabb → Fin 4 → ℝ := fun _ _ => 1

/-- An all-zero AABB bundle for the C8 witness. -/
def aabb0 : Bvh.SimdAabb := ⟨fun _ => 0, fun _ => 0⟩

end Parry

/-! ## Theorems -/

namespace Parry

@[simp] theorem Vec3.zero_mk : (0 : Vec3) = ⟨0, 0, 0⟩ := rfl

@[simp] theorem Vec3.neg_mk (x y z : ℝ) : (-(⟨x, y, z⟩ : Vec3)) = ⟨-x, -y, -z⟩ := rfl

@[simp] theorem Vec3.add_mk (a b c d e f : ℝ) :
    ((⟨a, b, c⟩ : Vec3) + ⟨d, e, f⟩) = ⟨a + d, b + e, c + f⟩ := rfl

@[simp] theorem Vec3.sub_mk (a b c d e f : ℝ) :
    ((⟨a, b, c⟩ : Vec3) - ⟨d, e, f⟩) = ⟨a - d, b - e, c - f⟩ := rfl

@[simp] theorem Vec3.smul_mk (r a b c : ℝ) :
    (r • (⟨a, b, c⟩ : Vec3)) = ⟨r * a, r * b, r * c⟩ := rfl

@[simp] theorem Vec3.dot_mk (a b c d e f : ℝ) :
    Vec3.dot ⟨a, b, c⟩ ⟨d, e, f⟩ = a * d + b * e + c * f := rfl

theorem DEFAULT_EPSILON_pos : 0 < DEFAULT_EPSILON := by norm_num [DEFAULT_EPSILON]

theorem eps_tol_pos : 0 < eps_tol := by norm_num [eps_tol, DEFAULT_EPSILON]

theorem eps_tol_lt_one : eps_tol < 1 := by norm_num [eps_tol, DEFAULT_EPSILON]

/-- Evaluation of the normalization of `(1, 0, 0)`-like vectors used by the
witnesses. -/
theorem tryNewAndGet_unit (x y z : ℝ) (h : x * x + y * y + z * z = 1) :
    tryNewAndGet ⟨x, y, z⟩ eps_tol = some (⟨x, y, z⟩, 1) := by
  have hn : Vec3.norm ⟨x, y, z⟩ = 1 := by
    simp [Vec3.norm, Vec3.normSq, Vec3.dot, h]
  rw [tryNewAndGet, hn]
  rw [if_pos (by linarith [eps_tol_lt_one])]
  norm_num

/-- C1: in the GJK main iteration, once the new support point is queried in
the normalized search direction, `min_bound > max_dist` yields
`NoIntersection(dir)`, and otherwise the coarse-mode fast exit
(`¬exact_dist ∧ min_bound > 0 ∧ max_bound ≤ max_dist`) yields
`Proximity(old_dir)` with the previous iteration's direction. -/
theorem c1_gjk_lower_bound_exits (prims : ProjPrims) (support : Vec3 → CSOPoint)
    (maxDist : ℝ) (exactDist : Bool) (st : GState) (dir : Vec3) (dist : ℝ)
    (hnew : tryNewAndGet (-st.proj) eps_tol = some (dir, dist))
    (hdec : dist < st.maxBound) :
    (-(Vec3.dot dir (support dir).point) > maxDist →
      gjkStep prims support maxDist exactDist st = .inl (.NoIntersection dir)) ∧
    (¬(-(Vec3.dot dir (support dir).point) > maxDist) →
      exactDist = false → -(Vec3.dot dir (support dir).point) > 0 → dist ≤ maxDist →
      gjkStep prims support maxDist exactDist st = .inl (.Proximity st.oldDir)) := by
  have hge : ¬ dist ≥ st.maxBound := not_le.mpr hdec
  constructor
  · intro h1
    simp only [gjkStep, hnew, hge, if_false]
    rw [if_pos h1]
  · intro h1 h2 h3 h4
    simp only [gjkStep, hnew, hge, if_false]
    rw [if_neg h1, if_pos ⟨h2, h3, h4⟩]

/-- Witness for C1, at a state whose projection is the unit `-x` vector:
the support point `(-3, 0, 0)` gives `min_bound = 3`, which certifies
separation for `max_dist = 1` and triggers the coarse fast-exit for
`max_dist = 10`. -/
theorem c1_witness :
    gjkStep prims0 suppNeg3 1 true stC1 = .inl (.NoIntersection ⟨1, 0, 0⟩) ∧
    gjkStep prims0 suppNeg3 10 false stC1 = .inl (.Proximity stC1.oldDir) := by
  have hnew : tryNewAndGet (-stC1.proj) eps_tol = some (⟨1, 0, 0⟩, 1) := by
    have : -stC1.proj = (⟨1, 0, 0⟩ : Vec3) := by simp [stC1]
    rw [this]; exact tryNewAndGet_unit 1 0 0 (by norm_num)
  have hdot : -(Vec3.dot ⟨1, 0, 0⟩ (suppNeg3 ⟨1, 0, 0⟩).point) = 3 := by
    simp [suppNeg3]
  constructor
  · exact (c1_gjk_lower_bound_exits prims0 suppNeg3 1 true stC1 ⟨1, 0, 0⟩ 1 hnew
      (by norm_num [stC1])).1 (by rw [hdot]; norm_num)
  · exact (c1_gjk_lower_bound_exits prims0 suppNeg3 10 false stC1 ⟨1, 0, 0⟩ 1 hnew
      (by norm_num [stC1])).2 (by rw [hdot]; norm_num) rfl (by rw [hdot]; norm_num)
      (by norm_num)

/-- C2: when an iteration fails to decrease the upper bound
(`max_bound ≥ old_max_bound`), the GJK loop returns immediately with the
previous direction `old_dir`; in exact mode the witness points are
`result(simplex, true)`, which is exactly the convex combination over the
simplex's pre-reduction mirror (`prev_dim`, `prev_proj_coord`,
`prev_point`) rather than the current state. -/
theorem c2_gjk_upper_bound_regression (prims : ProjPrims) (support : Vec3 → CSOPoint)
    (maxDist : ℝ) (exactDist : Bool) (st : GState) (dir : Vec3) (dist : ℝ)
    (hnew : tryNewAndGet (-st.proj) eps_tol = some (dir, dist))
    (hreg : dist ≥ st.maxBound) :
    (exactDist = true →
      gjkStep prims support maxDist exactDist st =
        .inl (.ClosestPoints (result st.simplex true).1 (result st.simplex true).2 st.oldDir)) ∧
    (exactDist = false →
      gjkStep prims support maxDist exactDist st = .inl (.Proximity st.oldDir)) ∧
    result st.simplex true =
      (sumVec ((List.range (st.simplex.prev_dim + 1)).map fun i =>
          VoronoiSimplex.prevProjAt st.simplex i • (VoronoiSimplex.prevPointAt st.simplex i).orig1),
       sumVec ((List.range (st.simplex.prev_dim + 1)).map fun i =>
          VoronoiSimplex.prevProjAt st.simplex i • (VoronoiSimplex.prevPointAt st.simplex i).orig2)) := by
  refine ⟨fun he => ?_, fun he => ?_, rfl⟩
  · simp [gjkStep, hnew, hreg, he]
  · simp [gjkStep, hnew, hreg, he]

/-- Witness for C2 at a state with `max_bound = 1/2` regressing to
`dist = 1`. -/
theorem c2_witness :
    gjkStep prims0 suppNeg3 1 true stC2 =
      .inl (.ClosestPoints (result stC2.simplex true).1 (result stC2.simplex true).2
        stC2.oldDir) ∧
    gjkStep prims0 suppNeg3 1 false stC2 = .inl (.Proximity stC2.oldDir) := by
  have hnew : tryNewAndGet (-stC2.proj) eps_tol = some (⟨1, 0, 0⟩, 1) := by
    have : -stC2.proj = (⟨1, 0, 0⟩ : Vec3) := by simp [stC2]
    rw [this]; exact tryNewAndGet_unit 1 0 0 (by norm_num)
  refine ⟨(c2_gjk_upper_bound_regression prims0 suppNeg3 1 true stC2 ⟨1, 0, 0⟩ 1 hnew
      (by norm_num [stC2])).1 rfl,
    (c2_gjk_upper_bound_regression prims0 suppNeg3 1 false stC2 ⟨1, 0, 0⟩ 1 hnew
      (by norm_num [stC2])).2.1 rfl⟩

theorem runSteps_zero (prims : ProjPrims) (support : Vec3 → CSOPoint)
    (maxDist : ℝ) (exactDist : Bool) (st : GState) :
    runSteps prims support maxDist exactDist 0 st = .inr st := rfl

theorem runSteps_succ (prims : ProjPrims) (support : Vec3 → CSOPoint)
    (maxDist : ℝ) (exactDist : Bool) (n : ℕ) (st : GState) :
    runSteps prims support maxDist exactDist (n + 1) st =
      (match gjkStep prims support maxDist exactDist st with
       | .inl r => .inl r
       | .inr st2 => runSteps prims support maxDist exactDist n st2) := rfl

theorem gjkLoop_unfold (prims : ProjPrims) (support : Vec3 → CSOPoint)
    (maxDist : ℝ) (exactDist : Bool) (fuel : ℕ) (st : GState) :
    gjkLoop prims support maxDist exactDist fuel st =
      (match gjkStep prims support maxDist exactDist st with
       | .inl r => r
       | .inr st2 =>
         match fuel with
         | 0 => .NoIntersection Vec3.xAxis
         | n + 1 => gjkLoop prims support maxDist exactDist n st2) := by
  rw [gjkLoop]

theorem gjkLoop_eq_runSteps (prims : ProjPrims) (support : Vec3 → CSOPoint)
    (maxDist : ℝ) (exactDist : Bool) :
    ∀ (n : ℕ) (st : GState),
      gjkLoop prims support maxDist exactDist n st =
        (match runSteps prims support maxDist exactDist (n + 1) st with
         | .inl r => r
         | .inr _ => .NoIntersection Vec3.xAxis) := by
  intro n
  induction n with
  | zero =>
    intro st
    rw [gjkLoop_unfold, runSteps_succ]
    cases h : gjkStep prims support maxDist exactDist st with
    | inl r => simp
    | inr st2 => simp [runSteps_zero]
  | succ k ih =>
    intro st
    rw [gjkLoop_unfold, runSteps_succ]
    cases h : gjkStep prims support maxDist exactDist st with
    | inl r => simp
    | inr st2 => simpa using ih st2

@[simp] theorem swap_proj (s : VoronoiSimplex) (i j : Fin 4) :
    (VoronoiSimplex.swap s i j).proj = s.proj := rfl

@[simp] theorem swap_dim (s : VoronoiSimplex) (i j : Fin 4) :
    (VoronoiSimplex.swap s i j).dim = s.dim := rfl

@[simp] theorem projAt_zero (s : VoronoiSimplex) :
    VoronoiSimplex.projAt s 0 = s.proj 0 := rfl

@[simp] theorem projAt_one (s : VoronoiSimplex) :
    VoronoiSimplex.projAt s 1 = s.proj 1 := rfl

@[simp] theorem projAt_two (s : VoronoiSimplex) :
    VoronoiSimplex.projAt s 2 = s.proj 2 := rfl

theorem range_one : List.range 1 = [0] := rfl

theorem range_two : List.range 2 = [0, 1] := rfl

theorem range_three : List.range 3 = [0, 1, 2] := rfl

@[simp] theorem finThree_zero_ne_one : (0 : Fin 3) ≠ 1 := by decide

@[simp] theorem finThree_one_ne_zero : (1 : Fin 3) ≠ 0 := by decide

@[simp] theorem finThree_zero_ne_two : (0 : Fin 3) ≠ 2 := by decide

@[simp] theorem finThree_two_ne_zero : (2 : Fin 3) ≠ 0 := by decide

@[simp] theorem finThree_one_ne_two : (1 : Fin 3) ≠ 2 := by decide

@[simp] theorem finThree_two_ne_one : (2 : Fin 3) ≠ 1 := by decide

/-- C3: `gjk::closest_points` terminates on every input — it is fully
determined by the initialization followed by at most 100 iterations of the
loop body, and when all 100 iterations continue it returns the sentinel
`NoIntersection` along the unit x-axis. -/
theorem c3_gjk_terminates_at_cap (prims : ProjPrims) (support : Vec3 → CSOPoint)
    (maxDist : ℝ) (exactDist : Bool) (simplex : VoronoiSimplex) :
    closestPoints prims support maxDist exactDist simplex =
      (match gjkInit prims simplex with
       | .inl r => r
       | .inr st =>
         match runSteps prims support maxDist exactDist 100 st with
         | .inl r => r
         | .inr _ => .NoIntersection Vec3.xAxis) := by
  rw [closestPoints]
  cases h : gjkInit prims simplex with
  | inl r => rfl
  | inr st => exact gjkLoop_eq_runSteps prims support maxDist exactDist 99 st

/-- C6: after `project_origin_and_reduce`, the barycentric coordinates
`proj[0 ..= dim]` sum to 1 (exactly, in real arithmetic — in particular
within `10·eps_tol`) and are all nonnegative, assuming the projection
primitive invoked for the current dimension reported a coordinate-bearing
feature with valid convex barycentric coordinates. -/
theorem c6_barycentric_partition (prims : ProjPrims) (s : VoronoiSimplex)
    (hdim : s.dim ≤ 3)
    (h1 : s.dim = 1 →
      SegLocOK (prims.segProj (s.vertices 0).point (s.vertices 1).point).2)
    (h2 : s.dim = 2 →
      TriLocOK (prims.triProj (s.vertices 0).point (s.vertices 1).point
        (s.vertices 2).point).2)
    (h3 : s.dim = 3 →
      TetLocOK (prims.tetProj (s.vertices 0).point (s.vertices 1).point
        (s.vertices 2).point (s.vertices 3).point).2) :
    projListSum (VoronoiSimplex.projectOriginAndReduce prims s).2 = 1 ∧
    ∀ i ≤ (VoronoiSimplex.projectOriginAndReduce prims s).2.dim,
      0 ≤ VoronoiSimplex.projAt (VoronoiSimplex.projectOriginAndReduce prims s).2 i := by
  rcases show s.dim = 0 ∨ s.dim = 1 ∨ s.dim = 2 ∨ s.dim = 3 by omega with h0 | h0 | h0 | h0
  · -- dim = 0
    refine ⟨?_, ?_⟩
    · simp [VoronoiSimplex.projectOriginAndReduce, h0, projListSum, range_one,
        Function.update_apply]
    · intro i hi
      simp [VoronoiSimplex.projectOriginAndReduce, h0] at hi
      subst hi
      simp [VoronoiSimplex.projectOriginAndReduce, h0, Function.update_apply]
  · -- dim = 1: segment projection
    specialize h1 h0
    rcases hpr : prims.segProj (s.vertices 0).point (s.vertices 1).point with ⟨pp, loc⟩
    rw [hpr] at h1
    cases loc with
    | OnVertex i =>
      by_cases hi0 : i = (0 : Fin 2)
      all_goals refine ⟨?_, ?_⟩
      · simp [VoronoiSimplex.projectOriginAndReduce, h0, hpr, hi0, projListSum, range_one,
          Function.update_apply]
      · intro i hi
        simp [VoronoiSimplex.projectOriginAndReduce, h0, hpr, hi0] at hi
        subst hi
        simp [VoronoiSimplex.projectOriginAndReduce, h0, hpr, hi0, Function.update_apply]
      · simp [VoronoiSimplex.projectOriginAndReduce, h0, hpr, hi0, projListSum, range_one,
          Function.update_apply]
      · intro i hi
        simp [VoronoiSimplex.projectOriginAndReduce, h0, hpr, hi0] at hi
        subst hi
        simp [VoronoiSimplex.projectOriginAndReduce, h0, hpr, hi0, Function.update_apply]
    | OnEdge c0 c1 =>
      obtain ⟨hsum, hc0, hc1⟩ := h1
      refine ⟨?_, ?_⟩
      · simp [VoronoiSimplex.projectOriginAndReduce, h0, hpr, projListSum, range_two,
          Function.update_apply]
        linarith
      · intro i hi
        simp [VoronoiSimplex.projectOriginAndReduce, h0, hpr] at hi
        interval_cases i <;>
          simp [VoronoiSimplex.projectOriginAndReduce, h0, hpr, Function.update_apply,
            hc0, hc1]
  · -- dim = 2: triangle projection
    specialize h2 h0
    rcases hpr : prims.triProj (s.vertices 0).point (s.vertices 1).point
      (s.vertices 2).point with ⟨pp, loc⟩
    rw [hpr] at h2
    cases loc with
    | OnVertex i =>
      refine ⟨?_, ?_⟩
      · simp [VoronoiSimplex.projectOriginAndReduce, h0, hpr, projListSum, range_one,
          Function.update_apply]
      · intro i hi
        simp [VoronoiSimplex.projectOriginAndReduce, h0, hpr] at hi
        subst hi
        simp [VoronoiSimplex.projectOriginAndReduce, h0, hpr, Function.update_apply]
    | OnEdge i c0 c1 =>
      obtain ⟨hsum, hc0, hc1⟩ := h2
      by_cases hi0 : i = (0 : Fin 3)
      · refine ⟨?_, ?_⟩
        · simp [VoronoiSimplex.projectOriginAndReduce, h0, hpr, hi0, projListSum, range_two,
            Function.update_apply]
          linarith
        · intro i hi
          simp [VoronoiSimplex.projectOriginAndReduce, h0, hpr, hi0] at hi
          interval_cases i <;>
            simp [VoronoiSimplex.projectOriginAndReduce, h0, hpr, hi0, Function.update_apply,
              hc0, hc1]
      · by_cases hi1 : i = (1 : Fin 3)
        all_goals refine ⟨?_, ?_⟩
        · simp [VoronoiSimplex.projectOriginAndReduce, h0, hpr, hi0, hi1, projListSum,
            range_two, Function.update_apply]
          linarith
        · intro i hi
          simp [VoronoiSimplex.projectOriginAndReduce, h0, hpr, hi0, hi1] at hi
          interval_cases i <;>
            simp [VoronoiSimplex.projectOriginAndReduce, h0, hpr, hi0, hi1,
              Function.update_apply, hc0, hc1]
        · simp [VoronoiSimplex.projectOriginAndReduce, h0, hpr, hi0, hi1, projListSum,
            range_two, Function.update_apply]
          linarith
        · intro i hi
          simp [VoronoiSimplex.projectOriginAndReduce, h0, hpr, hi0, hi1] at hi
          interval_cases i <;>
            simp [VoronoiSimplex.projectOriginAndReduce, h0, hpr, hi0, hi1,
              Function.update_apply, hc0, hc1]
    | OnFace i c0 c1 c2 =>
      obtain ⟨hsum, hc0, hc1, hc2⟩ := h2
      refine ⟨?_, ?_⟩
      · simp [VoronoiSimplex.projectOriginAndReduce, h0, hpr, projListSum, range_three]
        linarith
      · intro i hi
        simp [VoronoiSimplex.projectOriginAndReduce, h0, hpr] at hi
        interval_cases i <;>
          simp [VoronoiSimplex.projectOriginAndReduce, h0, hpr, hc0, hc1, hc2]
    | OnSolid => exact absurd h2 (by simp [TriLocOK])
  · -- dim = 3: tetrahedron projection
    specialize h3 h0
    rcases hpr : prims.tetProj (s.vertices 0).point (s.vertices 1).point
      (s.vertices 2).point (s.vertices 3).point with ⟨pp, loc⟩
    rw [hpr] at h3
    cases loc with
    | OnVertex i =>
      refine ⟨?_, ?_⟩
      · simp [VoronoiSimplex.projectOriginAndReduce, h0, hpr, projListSum, range_one,
          Function.update_apply]
      · intro i hi
        simp [VoronoiSimplex.projectOriginAndReduce, h0, hpr] at hi
        subst hi
        simp [VoronoiSimplex.projectOriginAndReduce, h0, hpr, Function.update_apply]
    | OnEdge i c0 c1 =>
      obtain ⟨hsum, hc0, hc1⟩ := h3
      by_cases h34 : i = (3 : Fin 6) ∨ i = (4 : Fin 6)
      all_goals refine ⟨?_, ?_⟩
      · simp [VoronoiSimplex.projectOriginAndReduce, h0, hpr, h34, projListSum, range_two,
          Function.update_apply]
        linarith
      · intro i hi
        simp [VoronoiSimplex.projectOriginAndReduce, h0, hpr, h34] at hi
        interval_cases i <;>
          simp [VoronoiSimplex.projectOriginAndReduce, h0, hpr, h34, Function.update_apply,
            hc0, hc1]
      · simp [VoronoiSimplex.projectOriginAndReduce, h0, hpr, h34, projListSum, range_two,
          Function.update_apply]
        linarith
      · intro i hi
        simp [VoronoiSimplex.projectOriginAndReduce, h0, hpr, h34] at hi
        interval_cases i <;>
          simp [VoronoiSimplex.projectOriginAndReduce, h0, hpr, h34, Function.update_apply,
            hc0, hc1]
    | OnFace i c0 c1 c2 =>
      obtain ⟨hsum, hc0, hc1, hc2⟩ := h3
      by_cases hf0 : i = (0 : Fin 4)
      · refine ⟨?_, ?_⟩
        · simp [VoronoiSimplex.projectOriginAndReduce, h0, hpr, hf0, projListSum, range_three]
          linarith
        · intro i hi
          simp [VoronoiSimplex.projectOriginAndReduce, h0, hpr, hf0] at hi
          interval_cases i <;>
            simp [VoronoiSimplex.projectOriginAndReduce, h0, hpr, hf0, hc0, hc1, hc2]
      · by_cases hf1 : i = (1 : Fin 4)
        · refine ⟨?_, ?_⟩
          · simp [VoronoiSimplex.projectOriginAndReduce, h0, hpr, hf0, hf1, projListSum,
              range_three]
            linarith
          · intro i hi
            simp [VoronoiSimplex.projectOriginAndReduce, h0, hpr, hf0, hf1] at hi
            interval_cases i <;>
              simp [VoronoiSimplex.projectOriginAndReduce, h0, hpr, hf0, hf1, hc0, hc1, hc2]
        · by_cases hf2 : i = (2 : Fin 4)
          all_goals refine ⟨?_, ?_⟩
          · simp [VoronoiSimplex.projectOriginAndReduce, h0, hpr, hf0, hf1, hf2, projListSum,
              range_three]
            linarith
          · intro i hi
            simp [VoronoiSimplex.projectOriginAndReduce, h0, hpr, hf0, hf1, hf2] at hi
            interval_cases i <;>
              simp [VoronoiSimplex.projectOriginAndReduce, h0, hpr, hf0, hf1, hf2,
                hc0, hc1, hc2]
          · simp [VoronoiSimplex.projectOriginAndReduce, h0, hpr, hf0, hf1, hf2, projListSum,
              range_three]
            linarith
          · intro i hi
            simp [VoronoiSimplex.projectOriginAndReduce, h0, hpr, hf0, hf1, hf2] at hi
            interval_cases i <;>
              simp [VoronoiSimplex.projectOriginAndReduce, h0, hpr, hf0, hf1, hf2,
                hc0, hc1, hc2]
    | OnSolid => exact absurd h3 (by simp [TetLocOK])

theorem rayPostClip_some_shape (prims : ProjPrims) (rayLength : ℝ) (dir : Vec3)
    (sp : CSOPoint) (st : RState) (r : ℝ) (l : Vec3) (sf : VoronoiSimplex)
    (h : rayPostClip prims rayLength dir sp st = .inl (some (r, l), sf)) :
    r = st.ltoi / rayLength := by
  simp only [rayPostClip] at h
  split_ifs at h <;> simp_all

theorem rayStep_some_shape (support : Vec3 → CSOPoint) (prims : ProjPrims)
    (rayDirUnit : Vec3) (rayLength maxToi : ℝ) (st : RState) (r : ℝ) (l : Vec3)
    (sf : VoronoiSimplex)
    (h : rayStep support prims rayDirUnit rayLength maxToi st = .inl (some (r, l), sf)) :
    ∃ lt, r = lt / rayLength := by
  simp only [rayStep] at h
  split at h
  · refine ⟨st.ltoi, ?_⟩
    simp_all
  · split_ifs at h <;>
      first
        | (refine ⟨st.ltoi, ?_⟩; simp_all; done)
        | (exact ⟨_, rayPostClip_some_shape _ _ _ _ _ _ _ _ h⟩)
        | (split at h <;>
            first
              | (simp_all; done)
              | (exact ⟨_, rayPostClip_some_shape _ _ _ _ _ _ _ _ h⟩)
              | (split_ifs at h <;>
                  first
                    | (simp_all; done)
                    | (exact ⟨_, rayPostClip_some_shape _ _ _ _ _ _ _ _ h⟩)))

theorem rayRun_some_shape (support : Vec3 → CSOPoint) (prims : ProjPrims)
    (rayDirUnit : Vec3) (rayLength maxToi : ℝ) :
    ∀ (fuel : ℕ) (st : RState) (r : ℝ) (l : Vec3) (sf : VoronoiSimplex),
      rayRun support prims rayDirUnit rayLength maxToi fuel st = (some (r, l), sf) →
      ∃ lt, r = lt / rayLength := by
  intro fuel
  induction fuel with
  | zero =>
    intro st r l sf h
    rw [rayRun] at h
    rcases hs : rayStep support prims rayDirUnit rayLength maxToi st with res | st2 <;>
      rw [hs] at h
    · have h2 : res = (some (r, l), sf) := by simpa using h
      exact rayStep_some_shape support prims rayDirUnit rayLength maxToi st r l sf
        (by rw [hs, h2])
    · simp at h
  | succ k ih =>
    intro st r l sf h
    rw [rayRun] at h
    rcases hs : rayStep support prims rayDirUnit rayLength maxToi st with res | st2 <;>
      rw [hs] at h
    · have h2 : res = (some (r, l), sf) := by simpa using h
      exact rayStep_some_shape support prims rayDirUnit rayLength maxToi st r l sf
        (by rw [hs, h2])
    · exact ih st2 r l sf (by simpa using h)

theorem rayRun_fst_some_shape (support : Vec3 → CSOPoint) (prims : ProjPrims)
    (rayDirUnit : Vec3) (rayLength maxToi : ℝ) (fuel : ℕ) (st : RState) (r : ℝ)
    (l : Vec3)
    (h : (rayRun support prims rayDirUnit rayLength maxToi fuel st).1 = some (r, l)) :
    ∃ lt, r = lt / rayLength :=
  rayRun_some_shape support prims rayDirUnit rayLength maxToi fuel st r l
    (rayRun support prims rayDirUnit rayLength maxToi fuel st).2 (by rw [← h])

/-- C7: in `minkowski_ray_cast`, when the clipped support halfspace gives
`dir·ray.dir < 0` and clip parameter `t > 0`, the iteration advances:
`ltoi` grows by `t`, the moving ray origin and every simplex vertex are
shifted by that advance, and the upper bound is reset — unless the
advanced `ltoi / ray_length` exceeds `max_time_of_impact`, in which case
the function returns `None`; moreover every `Some` result of a step (and
of `minkowski_ray_cast`, hence `cast_local_ray` and
`directional_distance`) carries `ltoi / ray_length` as its impact
parameter. -/
theorem c7_ray_cast_advance (support : Vec3 → CSOPoint) (prims : ProjPrims)
    (rayDirUnit : Vec3) (rayLength maxToi : ℝ) (st : RState) (dir : Vec3) (dist t : ℝ)
    (hnew : tryNewAndGet (-st.proj) eps_tol = some (dir, dist))
    (hdec : dist < st.maxBound)
    (hlc : st.lastChance = false)
    (hclip : rayToiWithHalfspace (support dir).point dir ⟨st.origin, rayDirUnit⟩ = some t)
    (hneg : Vec3.dot dir rayDirUnit < 0)
    (hpos : t > 0) :
    ((st.ltoi + t) / rayLength > maxToi →
      rayStep support prims rayDirUnit rayLength maxToi st = .inl (none, st.simplex)) ∧
    (¬((st.ltoi + t) / rayLength > maxToi) →
      rayStep support prims rayDirUnit rayLength maxToi st =
        rayPostClip prims rayLength dir (support dir)
          { simplex := st.simplex.modifyPnts fun p => p.translate (-(t • rayDirUnit))
            proj := st.proj
            ltoi := st.ltoi + t
            origin := st.origin + t • rayDirUnit
            ldir := dir
            maxBound := REAL_MAX
            lastChance := false }) ∧
    (∀ (st2 : RState) (r : ℝ) (l : Vec3) (sf : VoronoiSimplex),
      rayStep support prims rayDirUnit rayLength maxToi st2 = .inl (some (r, l), sf) →
      ∃ lt, r = lt / rayLength) ∧
    (∀ (ray : Ray) (maxToi2 : ℝ) (simplex : VoronoiSimplex) (r : ℝ) (l : Vec3),
      minkowskiRayCast support prims ray maxToi2 simplex = some (r, l) →
      ∃ lt, r = lt / Vec3.norm ray.dir) := by
  have hge : ¬ dist ≥ st.maxBound := not_le.mpr hdec
  refine ⟨?_, ?_, ?_, ?_⟩
  · intro hcap
    simp only [rayStep, hnew, hge, if_false, hlc, Bool.false_eq_true, false_and, hclip]
    rw [if_pos (show Vec3.dot dir rayDirUnit < 0 ∧ t > 0 from ⟨hneg, hpos⟩), if_pos hcap]
  · intro hcap
    simp only [rayStep, hnew, hge, if_false, hlc, Bool.false_eq_true, false_and, hclip]
    rw [if_pos (show Vec3.dot dir rayDirUnit < 0 ∧ t > 0 from ⟨hneg, hpos⟩), if_neg hcap]
  · exact fun st2 r l sf h =>
      rayStep_some_shape support prims rayDirUnit rayLength maxToi st2 r l sf h
  · intro ray maxToi2 simplex r l h
    simp only [minkowskiRayCast, minkowskiRayCastS] at h
    by_cases hz : Vec3.norm ray.dir ≤ DEFAULT_EPSILON
    · simp [hz] at h
    · simp only [hz, if_false] at h
      exact rayRun_fst_some_shape support prims _ _ maxToi2 _ _ r l h

/-- Witness for C7: a unit ray along x against a support plane at
`x = 2` with search direction `-x` advances by `t = 2`. -/
theorem c7_witness :
    rayStep suppTwo prims0 ⟨1, 0, 0⟩ 1 10 stC7 =
      rayPostClip prims0 1 ⟨-1, 0, 0⟩ (suppTwo ⟨-1, 0, 0⟩)
        { simplex := stC7.simplex.modifyPnts fun p =>
            p.translate (-((2 : ℝ) • (⟨1, 0, 0⟩ : Vec3)))
          proj := stC7.proj
          ltoi := stC7.ltoi + 2
          origin := stC7.origin + (2 : ℝ) • (⟨1, 0, 0⟩ : Vec3)
          ldir := ⟨-1, 0, 0⟩
          maxBound := REAL_MAX
          lastChance := false } := by
  have hnew : tryNewAndGet (-stC7.proj) eps_tol = some (⟨-1, 0, 0⟩, 1) := by
    have he : -stC7.proj = (⟨-1, 0, 0⟩ : Vec3) := by simp [stC7]
    rw [he]
    exact tryNewAndGet_unit (-1) 0 0 (by norm_num)
  have hclip : rayToiWithHalfspace (suppTwo ⟨-1, 0, 0⟩).point ⟨-1, 0, 0⟩
      ⟨stC7.origin, ⟨1, 0, 0⟩⟩ = some 2 := by
    rw [rayToiWithHalfspace]
    simp [suppTwo, stC7]
  exact (c7_ray_cast_advance suppTwo prims0 ⟨1, 0, 0⟩ 1 10 stC7 ⟨-1, 0, 0⟩ 1 2 hnew
    (by norm_num [stC7]) rfl hclip (by simp) (by norm_num)).2.1 (by norm_num [stC7])

/-- C10: when the input ray direction has (approximately) zero norm —
`relative_eq!(ray_length, 0)`, i.e. norm at most machine epsilon —
`minkowski_ray_cast` returns `None` immediately (for every support
mapping, projection primitive and simplex, leaving the simplex untouched),
and so do `cast_local_ray` and `directional_distance`. -/
theorem c10_zero_ray_dir (support : Vec3 → CSOPoint) (prims : ProjPrims)
    (simplex : VoronoiSimplex) (maxToi : ℝ) (ray : Ray)
    (h : Vec3.norm ray.dir ≤ DEFAULT_EPSILON) :
    minkowskiRayCastS support prims ray maxToi simplex = (none, simplex) ∧
    minkowskiRayCast support prims ray maxToi simplex = none ∧
    castLocalRay support prims simplex ray maxToi = none ∧
    ∀ dirv : Vec3, Vec3.norm dirv ≤ DEFAULT_EPSILON →
      directionalDistance support prims dirv simplex = none := by
  have h1 : minkowskiRayCastS support prims ray maxToi simplex = (none, simplex) := by
    simp only [minkowskiRayCastS]
    rw [if_pos h]
  refine ⟨h1, by rw [minkowskiRayCast, h1], by rw [castLocalRay, minkowskiRayCast, h1], ?_⟩
  intro dirv hd
  have h2 : minkowskiRayCastS support prims ⟨0, dirv⟩ REAL_MAX simplex = (none, simplex) := by
    simp only [minkowskiRayCastS]
    rw [if_pos hd]
  rw [directionalDistance, h2]

/-- Witness for C10 at the zero-direction ray. -/
theorem c10_witness :
    minkowskiRayCast suppZero prims0 rayZero 1 VoronoiSimplex.new = none ∧
    directionalDistance suppZero prims0 0 VoronoiSimplex.new = none := by
  have hz : Vec3.norm rayZero.dir ≤ DEFAULT_EPSILON := by
    have : rayZero.dir = (⟨0, 0, 0⟩ : Vec3) := rfl
    rw [this, Vec3.norm, Vec3.normSq]
    simp
    norm_num [DEFAULT_EPSILON]
  have h := c10_zero_ray_dir suppZero prims0 VoronoiSimplex.new 1 rayZero hz
  exact ⟨h.2.1, h.2.2.2 0 (by simpa [rayZero] using hz)⟩

@[simp] theorem Vec2.zero_mk2 : (0 : Epa2.Vec2) = ⟨0, 0⟩ := rfl

@[simp] theorem Vec2.neg_mk2 (x y : ℝ) : (-(⟨x, y⟩ : Epa2.Vec2)) = ⟨-x, -y⟩ := rfl

@[simp] theorem Vec2.add_mk2 (a b c d : ℝ) :
    ((⟨a, b⟩ : Epa2.Vec2) + ⟨c, d⟩) = ⟨a + c, b + d⟩ := rfl

@[simp] theorem Vec2.sub_mk2 (a b c d : ℝ) :
    ((⟨a, b⟩ : Epa2.Vec2) - ⟨c, d⟩) = ⟨a - c, b - d⟩ := rfl

@[simp] theorem Vec2.smul_mk2 (r a b : ℝ) :
    (r • (⟨a, b⟩ : Epa2.Vec2)) = ⟨r * a, r * b⟩ := rfl

@[simp] theorem Vec2.dot_mk2 (a b c d : ℝ) :
    Epa2.Vec2.dot ⟨a, b⟩ ⟨c, d⟩ = a * c + b * d := rfl

@[simp] theorem Vec2.perp_mk (a b c d : ℝ) :
    Epa2.Vec2.perp ⟨a, b⟩ ⟨c, d⟩ = a * d - b * c := rfl

theorem faceId_cmp_gt_iff (a b : Epa2.FaceId) :
    Epa2.FaceId.cmp a b = .gt ↔ a.neg_dist > b.neg_dist := by
  constructor
  · intro h
    rw [Epa2.FaceId.cmp] at h
    split_ifs at h with h1 h2 <;> first | exact h2 | simp at h
  · intro h
    rw [Epa2.FaceId.cmp, if_neg (not_lt.mpr h.le), if_pos h]

theorem popMax_none (l : List Epa2.FaceId) (h : Epa2.popMax l = none) : l = [] := by
  cases l with
  | nil => rfl
  | cons a as =>
    rw [Epa2.popMax] at h
    split at h
    · simp at h
    · split_ifs at h <;> simp at h

theorem popMax_max :
    ∀ (l : List Epa2.FaceId) (fid : Epa2.FaceId) (rest : List Epa2.FaceId),
      Epa2.popMax l = some (fid, rest) → ∀ x ∈ l, x.neg_dist ≤ fid.neg_dist := by
  intro l
  induction l with
  | nil => intro fid rest hp; simp [Epa2.popMax] at hp
  | cons a as ih =>
    intro fid rest hp x hx
    rw [Epa2.popMax] at hp
    split at hp
    · rename_i hq
      have hnil : as = [] := popMax_none as hq
      subst hnil
      simp only [Option.some.injEq, Prod.mk.injEq] at hp
      obtain ⟨h1, _⟩ := hp
      subst h1
      simp at hx
      subst hx
      exact le_refl _
    · rename_i m r2 hq
      by_cases hc : Epa2.FaceId.cmp a m = .gt
      · rw [if_pos hc] at hp
        simp only [Option.some.injEq, Prod.mk.injEq] at hp
        obtain ⟨h1, _⟩ := hp
        rw [← h1]
        have ham : m.neg_dist < a.neg_dist := (faceId_cmp_gt_iff a m).mp hc
        rcases List.mem_cons.mp hx with hxa | hxas
        · rw [hxa]
        · exact le_trans (ih m r2 hq x hxas) ham.le
      · rw [if_neg hc] at hp
        simp only [Option.some.injEq, Prod.mk.injEq] at hp
        obtain ⟨h1, _⟩ := hp
        rw [← h1]
        have ham : a.neg_dist ≤ m.neg_dist := by
          by_contra hgt
          exact hc ((faceId_cmp_gt_iff a m).mpr (not_le.mp hgt))
        rcases List.mem_cons.mp hx with hxa | hxas
        · rw [hxa]; exact ham
        · exact ih m r2 hq x hxas

/-- C9: in the `Ord` instance of `FaceId`, `a` compares greater than `b`
iff `a.neg_dist > b.neg_dist`; consequently popping the max-heap always
yields a face whose `neg_dist` is largest among the heap contents, i.e.
the face closest to the origin (smallest `-neg_dist`) pops first. -/
theorem c9_faceid_heap_order :
    (∀ a b : Epa2.FaceId, Epa2.FaceId.cmp a b = .gt ↔ a.neg_dist > b.neg_dist) ∧
    (∀ (l : List Epa2.FaceId) (fid : Epa2.FaceId) (rest : List Epa2.FaceId),
      Epa2.popMax l = some (fid, rest) →
      ∀ x ∈ l, x.neg_dist ≤ fid.neg_dist ∧ -fid.neg_dist ≤ -x.neg_dist) :=
  ⟨faceId_cmp_gt_iff, fun l fid rest hp x hx =>
    ⟨popMax_max l fid rest hp x hx, by linarith [popMax_max l fid rest hp x hx]⟩⟩

/-- Witness for C9 on a three-element heap: the face with `neg_dist = -1`
(distance 1) pops before the one with `neg_dist = -3`. -/
theorem c9_witness :
    (⟨1, -3⟩ : Epa2.FaceId).neg_dist ≤ (⟨0, -1⟩ : Epa2.FaceId).neg_dist ∧
    -(⟨0, -1⟩ : Epa2.FaceId).neg_dist ≤ -(⟨1, -3⟩ : Epa2.FaceId).neg_dist := by
  have h0 : Epa2.popMax ([] : List Epa2.FaceId) = none := by rw [Epa2.popMax]
  have h1 : Epa2.popMax [⟨2, -2⟩] = some (⟨2, -2⟩, []) := by rw [Epa2.popMax, h0]
  have hlt : ¬ Epa2.FaceId.cmp ⟨1, -3⟩ ⟨2, -2⟩ = .gt := by
    rw [faceId_cmp_gt_iff]; norm_num
  have h2 : Epa2.popMax [⟨1, -3⟩, ⟨2, -2⟩] = some (⟨2, -2⟩, [⟨1, -3⟩]) := by
    rw [Epa2.popMax, h1]; simp [hlt]
  have hgt : Epa2.FaceId.cmp ⟨0, -1⟩ ⟨2, -2⟩ = .gt :=
    (faceId_cmp_gt_iff _ _).mpr (by norm_num)
  have hp : Epa2.popMax heap9 = some (⟨0, -1⟩, [⟨1, -3⟩, ⟨2, -2⟩]) := by
    rw [heap9, Epa2.popMax, h2]; simp [hgt]
  exact c9_faceid_heap_order.2 heap9 ⟨0, -1⟩ [⟨1, -3⟩, ⟨2, -2⟩] hp ⟨1, -3⟩ (by simp [heap9])

theorem Vec2.normSq_nonneg (v : Epa2.Vec2) : 0 ≤ Epa2.Vec2.normSq v := by
  rw [Epa2.Vec2.normSq, Epa2.Vec2.dot]
  nlinarith [mul_self_nonneg v.x, mul_self_nonneg v.y]

theorem Vec2.normSq_smul (r : ℝ) (v : Epa2.Vec2) :
    Epa2.Vec2.normSq (r • v) = r ^ 2 * Epa2.Vec2.normSq v := by
  rcases v with ⟨x, y⟩
  simp [Epa2.Vec2.normSq, Epa2.Vec2.dot]
  ring

theorem epaEpsTol_pos : 0 < Epa2.epaEpsTol := by
  norm_num [Epa2.epaEpsTol, DEFAULT_EPSILON]

theorem tryNewAndGet2_normSq (v : Epa2.Vec2) (m : ℝ) (hm : 0 ≤ m) (u : Epa2.Vec2)
    (d : ℝ) (h : Epa2.tryNewAndGet v m = some (u, d)) : Epa2.Vec2.normSq u = 1 := by
  rw [Epa2.tryNewAndGet] at h
  split_ifs at h with hgt
  · have hpos : 0 < Epa2.Vec2.norm v := lt_of_le_of_lt hm hgt
    have hnsq : 0 < Epa2.Vec2.normSq v := by
      rw [Epa2.Vec2.norm] at hpos
      exact Real.sqrt_pos.mp hpos
    simp only [Option.some.injEq, Prod.mk.injEq] at h
    obtain ⟨hu, _⟩ := h
    rw [← hu, Vec2.normSq_smul]
    have hsq : Epa2.Vec2.norm v ^ 2 = Epa2.Vec2.normSq v :=
      Real.sq_sqrt (Vec2.normSq_nonneg v)
    rw [inv_pow, hsq]
    exact inv_mul_cancel₀ (ne_of_gt hnsq)

theorem tangentLoop1_normSq (g1s : Epa2.Vec2 → Epa2.Vec2) (orig1 : Epa2.Vec2) :
    ∀ (k : ℕ) (n : Epa2.Vec2), Epa2.Vec2.normSq n = 1 →
      Epa2.Vec2.normSq (Epa2.tangentLoop1 g1s orig1 k n) = 1 := by
  intro k
  induction k with
  | zero => intro n h; rw [Epa2.tangentLoop1]; exact h
  | succ j ih =>
    intro n h
    rw [Epa2.tangentLoop1]
    rcases ht : Epa2.tryNewAndGet (g1s n - orig1) Epa2.epaEpsTol with _ | ⟨t, d⟩
    · exact h
    · simp only
      split_ifs with hdot
      · exact h
      · refine ih _ ?_
        have ht1 : Epa2.Vec2.normSq t = 1 :=
          tryNewAndGet2_normSq _ _ epaEpsTol_pos.le _ _ ht
        rcases t with ⟨tx, ty⟩
        rw [Epa2.Vec2.normSq, Epa2.Vec2.dot] at ht1 ⊢
        simp only
        linarith [ht1]

theorem tangentLoop2_normSq (g2s : Epa2.Vec2 → Epa2.Vec2) (orig2 : Epa2.Vec2) :
    ∀ (k : ℕ) (n : Epa2.Vec2), Epa2.Vec2.normSq n = 1 →
      Epa2.Vec2.normSq (Epa2.tangentLoop2 g2s orig2 k n) = 1 := by
  intro k
  induction k with
  | zero => intro n h; rw [Epa2.tangentLoop2]; exact h
  | succ j ih =>
    intro n h
    rw [Epa2.tangentLoop2]
    rcases ht : Epa2.tryNewAndGet (g2s (-n) - orig2) Epa2.epaEpsTol with _ | ⟨t, d⟩
    · exact h
    · simp only
      split_ifs with hdot
      · exact h
      · refine ih _ ?_
        have ht1 : Epa2.Vec2.normSq t = 1 :=
          tryNewAndGet2_normSq _ _ epaEpsTol_pos.le _ _ ht
        rcases t with ⟨tx, ty⟩
        rw [Epa2.Vec2.normSq, Epa2.Vec2.dot] at ht1 ⊢
        simp only
        linarith [ht1]

/-- C5: for every dimension-0 seed simplex, 2D EPA `closest_points`
returns `Some((origin, origin, n))` with `n` a unit normal produced by the
two tangent-cone rotation loops (at most 100 rotations per shape); it
never returns `None` in this case. -/
theorem c5_epa_dim0 (g1s g2s : Epa2.Vec2 → Epa2.Vec2) (cso : Epa2.Vec2 → Epa2.CSOPoint)
    (seed : Epa2.SimplexSeed) (hdim : seed.dim = 0) :
    Epa2.closestPoints g1s g2s cso seed =
      some (0, 0, Epa2.tangentLoop2 g2s (seed.points 0).orig2 100
        (Epa2.tangentLoop1 g1s (seed.points 0).orig1 100 Epa2.Vec2.yAxis)) ∧
    Epa2.Vec2.normSq (Epa2.tangentLoop2 g2s (seed.points 0).orig2 100
      (Epa2.tangentLoop1 g1s (seed.points 0).orig1 100 Epa2.Vec2.yAxis)) = 1 := by
  constructor
  · rw [Epa2.closestPoints, if_pos hdim]
  · refine tangentLoop2_normSq g2s _ 100 _ (tangentLoop1_normSq g1s _ 100 _ ?_)
    rw [Epa2.Vec2.yAxis, Epa2.Vec2.normSq, Epa2.Vec2.dot]
    norm_num

/-- Witness for C5 at a dimension-0 seed with constant-zero supports: both
tangent loops stop immediately and the y-axis normal is returned. -/
theorem c5_witness :
    Epa2.closestPoints g1s0 g2s0 cso0 seedDim0 = some (0, 0, Epa2.Vec2.yAxis) ∧
    Epa2.Vec2.normSq Epa2.Vec2.yAxis = 1 := by
  have hzero : Epa2.tryNewAndGet 0 Epa2.epaEpsTol = none := by
    rw [Epa2.tryNewAndGet, if_neg]
    rw [Epa2.Vec2.norm]
    have h00 : Epa2.Vec2.normSq 0 = 0 := by simp [Epa2.Vec2.normSq, Epa2.Vec2.dot]
    rw [h00, Real.sqrt_zero]
    push_neg
    exact epaEpsTol_pos.le
  have l1 : ∀ n, Epa2.tangentLoop1 g1s0 (seedDim0.points 0).orig1 100 n = n := by
    intro n
    rw [Epa2.tangentLoop1]
    have he : g1s0 n - (seedDim0.points 0).orig1 = 0 := by
      simp [g1s0, seedDim0, Epa2.CSOPoint.origin]
    rw [he, hzero]
  have l2 : ∀ n, Epa2.tangentLoop2 g2s0 (seedDim0.points 0).orig2 100 n = n := by
    intro n
    rw [Epa2.tangentLoop2]
    have he : g2s0 (-n) - (seedDim0.points 0).orig2 = 0 := by
      simp [g2s0, seedDim0, Epa2.CSOPoint.origin]
    rw [he, hzero]
  have h := c5_epa_dim0 g1s0 g2s0 cso0 seedDim0 rfl
  rw [l1, l2] at h
  exact h

theorem FaceId_new_of_le (id : ℕ) (nd : ℝ) (h : nd ≤ eps_tol) :
    Epa2.FaceId.new id nd = some ⟨id, nd⟩ := by
  rw [Epa2.FaceId.new, if_neg (not_lt.mpr h)]

theorem FaceId_new_of_gt (id : ℕ) (nd : ℝ) (h : nd > eps_tol) :
    Epa2.FaceId.new id nd = none := by
  rw [Epa2.FaceId.new, if_pos h]

theorem option_bind_none {α β : Type} (X : Option α) (f : α → Option β)
    (hf : ∀ a, f a = none) : X >>= f = none := by
  cases X <;> simp [hf]

theorem option_bind_const_none {α β : Type} (X : Option α) :
    (X >>= fun _ => (none : Option β)) = none := by
  cases X <;> rfl

theorem init2Face_zero (vs : List Epa2.CSOPoint) :
    Epa2.init2Face vs 0 = Epa2.Face.new vs (0, 1) := by simp [Epa2.init2Face]

theorem init2Face_one (vs : List Epa2.CSOPoint) :
    Epa2.init2Face vs 1 = Epa2.Face.new vs (1, 2) := by simp [Epa2.init2Face]

theorem init2Face_two (vs : List Epa2.CSOPoint) :
    Epa2.init2Face vs 2 = Epa2.Face.new vs (2, 0) := by simp [Epa2.init2Face]

/-- Characterization of the `dim = 2` EPA initialization: it succeeds with
the CCW-oriented vertices, the three edge-faces and the heap of
inside-projecting faces exactly when some projection is inside and every
inside face passes the `FaceId::new` tolerance check; it aborts with
`None` when an inside face fails that check, and when no projection is
inside. -/
theorem epa2Init2_characterization (p0 p1 p2 : Epa2.CSOPoint) :
    ((∀ i, i < 3 → Epa2.init2Inside (Epa2.init2Verts p0 p1 p2) i = true →
        -(Epa2.init2Dist (Epa2.init2Verts p0 p1 p2) i) ≤ eps_tol) →
      (∃ i, i < 3 ∧ Epa2.init2Inside (Epa2.init2Verts p0 p1 p2) i = true) →
      Epa2.epa2Init2 p0 p1 p2 =
        some ⟨Epa2.init2Verts p0 p1 p2,
          [(Epa2.init2Face (Epa2.init2Verts p0 p1 p2) 0).1,
           (Epa2.init2Face (Epa2.init2Verts p0 p1 p2) 1).1,
           (Epa2.init2Face (Epa2.init2Verts p0 p1 p2) 2).1],
          Epa2.init2Heap (Epa2.init2Verts p0 p1 p2)⟩) ∧
    ((∃ i, i < 3 ∧ Epa2.init2Inside (Epa2.init2Verts p0 p1 p2) i = true ∧
        -(Epa2.init2Dist (Epa2.init2Verts p0 p1 p2) i) > eps_tol) →
      Epa2.epa2Init2 p0 p1 p2 = none) ∧
    ((∀ i, i < 3 → Epa2.init2Inside (Epa2.init2Verts p0 p1 p2) i = false) →
      Epa2.epa2Init2 p0 p1 p2 = none) := by
  have f0eq : (Epa2.Face.new (Epa2.init2Verts p0 p1 p2) (0, 1)).2 =
      Epa2.init2Inside (Epa2.init2Verts p0 p1 p2) 0 := by
    simp [Epa2.init2Inside, Epa2.init2Face]
  have f1eq : (Epa2.Face.new (Epa2.init2Verts p0 p1 p2) (1, 2)).2 =
      Epa2.init2Inside (Epa2.init2Verts p0 p1 p2) 1 := by
    simp [Epa2.init2Inside, Epa2.init2Face]
  have f2eq : (Epa2.Face.new (Epa2.init2Verts p0 p1 p2) (2, 0)).2 =
      Epa2.init2Inside (Epa2.init2Verts p0 p1 p2) 2 := by
    simp [Epa2.init2Inside, Epa2.init2Face]
  have d0eq : Epa2.Vec2.dot (Epa2.Face.new (Epa2.init2Verts p0 p1 p2) (0, 1)).1.normal
      (Epa2.vertAt (Epa2.init2Verts p0 p1 p2) 0).point =
      Epa2.init2Dist (Epa2.init2Verts p0 p1 p2) 0 := by
    simp [Epa2.init2Dist, Epa2.init2Face]
  have d1eq : Epa2.Vec2.dot (Epa2.Face.new (Epa2.init2Verts p0 p1 p2) (1, 2)).1.normal
      (Epa2.vertAt (Epa2.init2Verts p0 p1 p2) 1).point =
      Epa2.init2Dist (Epa2.init2Verts p0 p1 p2) 1 := by
    simp [Epa2.init2Dist, Epa2.init2Face]
  have d2eq : Epa2.Vec2.dot (Epa2.Face.new (Epa2.init2Verts p0 p1 p2) (2, 0)).1.normal
      (Epa2.vertAt (Epa2.init2Verts p0 p1 p2) 2).point =
      Epa2.init2Dist (Epa2.init2Verts p0 p1 p2) 2 := by
    simp [Epa2.init2Dist, Epa2.init2Face]
  refine ⟨?_, ?_, ?_⟩
  · intro hok hex
    rw [Epa2.epa2Init2]
    simp only [f0eq, f1eq, f2eq, d0eq, d1eq, d2eq]
    rcases hb0 : Epa2.init2Inside (Epa2.init2Verts p0 p1 p2) 0 <;>
      rcases hb1 : Epa2.init2Inside (Epa2.init2Verts p0 p1 p2) 1 <;>
      rcases hb2 : Epa2.init2Inside (Epa2.init2Verts p0 p1 p2) 2 <;>
      simp only [hb0, hb1, hb2, Bool.false_eq_true, if_false, if_true, Option.pure_def] <;>
      first
        | (exfalso
           obtain ⟨i, hi, hins⟩ := hex
           interval_cases i <;> simp_all
           done)
        | (repeat rw [FaceId_new_of_le _ _ (by
            first
              | exact hok 0 (by omega) hb0
              | exact hok 1 (by omega) hb1
              | exact hok 2 (by omega) hb2)]
           simp [Epa2.init2Heap, hb0, hb1, hb2, range_three, List.filter_cons,
             List.filter_nil, Epa2.init2Face])
  · intro hviol
    obtain ⟨i, hi, hins, hgt⟩ := hviol
    rw [Epa2.epa2Init2]
    simp only [f0eq, f1eq, f2eq, d0eq, d1eq, d2eq]
    interval_cases i <;>
      simp [hins, FaceId_new_of_gt _ _ hgt, option_bind_const_none]
  · intro hnone
    rw [Epa2.epa2Init2]
    simp only [f0eq, f1eq, f2eq, d0eq, d1eq, d2eq]
    simp [hnone 0 (by omega), hnone 1 (by omega), hnone 2 (by omega)]

/-- C4 (amended): in 2D EPA `closest_points` with a dimension-2 seed, the
triangle is oriented CCW (vertices 1 and 2 swapped when the signed area is
negative), three edge-faces are created, and each face whose
origin-projection lies inside it is pushed onto the heap **provided**
every inside face passes the `FaceId::new` tolerance check
(`-dist ≤ eps_tol`); if an inside-projecting face fails that check the
function returns `None`, and if none of the three projections lies inside
its face the function returns `None`. -/
theorem c4_epa2_dim2_init (g1s g2s : Epa2.Vec2 → Epa2.Vec2)
    (cso : Epa2.Vec2 → Epa2.CSOPoint) (seed : Epa2.SimplexSeed)
    (hdim : seed.dim = 2) :
    (∀ st, Epa2.epa2Init2 (seed.points 0) (seed.points 1) (seed.points 2) = some st →
      st.vertices = Epa2.init2Verts (seed.points 0) (seed.points 1) (seed.points 2) ∧
      st.faces =
        [(Epa2.init2Face (Epa2.init2Verts (seed.points 0) (seed.points 1) (seed.points 2)) 0).1,
         (Epa2.init2Face (Epa2.init2Verts (seed.points 0) (seed.points 1) (seed.points 2)) 1).1,
         (Epa2.init2Face (Epa2.init2Verts (seed.points 0) (seed.points 1) (seed.points 2)) 2).1] ∧
      st.heap = Epa2.init2Heap (Epa2.init2Verts (seed.points 0) (seed.points 1) (seed.points 2))) ∧
    ((∀ i, i < 3 →
        Epa2.init2Inside (Epa2.init2Verts (seed.points 0) (seed.points 1) (seed.points 2)) i = true →
        -(Epa2.init2Dist (Epa2.init2Verts (seed.points 0) (seed.points 1) (seed.points 2)) i) ≤ eps_tol) →
      (∃ i, i < 3 ∧
        Epa2.init2Inside (Epa2.init2Verts (seed.points 0) (seed.points 1) (seed.points 2)) i = true) →
      Epa2.epa2Init2 (seed.points 0) (seed.points 1) (seed.points 2) =
        some ⟨Epa2.init2Verts (seed.points 0) (seed.points 1) (seed.points 2),
          [(Epa2.init2Face (Epa2.init2Verts (seed.points 0) (seed.points 1) (seed.points 2)) 0).1,
           (Epa2.init2Face (Epa2.init2Verts (seed.points 0) (seed.points 1) (seed.points 2)) 1).1,
           (Epa2.init2Face (Epa2.init2Verts (seed.points 0) (seed.points 1) (seed.points 2)) 2).1],
          Epa2.init2Heap (Epa2.init2Verts (seed.points 0) (seed.points 1) (seed.points 2))⟩) ∧
    ((∀ i, i < 3 →
        Epa2.init2Inside (Epa2.init2Verts (seed.points 0) (seed.points 1) (seed.points 2)) i = false) →
      Epa2.closestPoints g1s g2s cso seed = none) ∧
    ((∃ i, i < 3 ∧
        Epa2.init2Inside (Epa2.init2Verts (seed.points 0) (seed.points 1) (seed.points 2)) i = true ∧
        -(Epa2.init2Dist (Epa2.init2Verts (seed.points 0) (seed.points 1) (seed.points 2)) i) > eps_tol) →
      Epa2.closestPoints g1s g2s cso seed = none) := by
  obtain ⟨hOk, hViol, hNone⟩ :=
    epa2Init2_characterization (seed.points 0) (seed.points 1) (seed.points 2)
  refine ⟨?_, hOk, ?_, ?_⟩
  · intro st hst
    by_cases hall : ∀ i, i < 3 →
        Epa2.init2Inside (Epa2.init2Verts (seed.points 0) (seed.points 1) (seed.points 2)) i = true →
        -(Epa2.init2Dist (Epa2.init2Verts (seed.points 0) (seed.points 1) (seed.points 2)) i) ≤ eps_tol
    · by_cases hex : ∃ i, i < 3 ∧
          Epa2.init2Inside (Epa2.init2Verts (seed.points 0) (seed.points 1) (seed.points 2)) i = true
      · rw [hOk hall hex] at hst
        simp only [Option.some.injEq] at hst
        rw [← hst]
        exact ⟨rfl, rfl, rfl⟩
      · have hfalse : ∀ i, i < 3 →
            Epa2.init2Inside (Epa2.init2Verts (seed.points 0) (seed.points 1) (seed.points 2)) i = false := by
          intro i hi
          rcases hbi : Epa2.init2Inside
              (Epa2.init2Verts (seed.points 0) (seed.points 1) (seed.points 2)) i
          · rfl
          · exact absurd ⟨i, hi, hbi⟩ hex
        rw [hNone hfalse] at hst
        simp at hst
    · push_neg at hall
      obtain ⟨i, hi, hins, hgt⟩ := hall
      rw [hViol ⟨i, hi, hins, hgt⟩] at hst
      simp at hst
  · intro hfalse
    rw [Epa2.closestPoints, if_neg (by rw [hdim]; norm_num), if_pos hdim, hNone hfalse]
  · intro hviol
    rw [Epa2.closestPoints, if_neg (by rw [hdim]; norm_num), if_pos hdim, hViol hviol]

/-- C4 counterexample to the claim as stated: for the dimension-2 seed
triangle `(-1,5), (1,5), (0,6)` (already CCW), the origin projects inside
the first edge-face, yet `closest_points` returns `None` without pushing
it — `FaceId::new` refuses the face because it lies on the wrong side of
the origin by more than the tolerance. -/
theorem c4_counterexample :
    (Epa2.projectOrigin c4pA.point c4pB.point).isSome = true ∧
    Epa2.init2Inside (Epa2.init2Verts c4pA c4pB c4pC) 0 = true ∧
    Epa2.epa2Init2 c4pA c4pB c4pC = none ∧
    Epa2.closestPoints g1s0 g2s0 cso0 c4seedX = none := by
  have hvs : Epa2.init2Verts c4pA c4pB c4pC = [c4pA, c4pB, c4pC] := by
    rw [Epa2.init2Verts, if_neg]
    simp [Epa2.CSOPoint.sub, c4pA, c4pB, c4pC]
    norm_num
  have hpo : Epa2.projectOrigin c4pA.point c4pB.point = some (⟨0, 5⟩, (1 / 2, 1 / 2)) := by
    rw [Epa2.projectOrigin]
    rw [if_neg (by
      simp [c4pA, c4pB, Epa2.Vec2.normSq, Epa2.Vec2.dot])]
    rw [if_neg (by
      simp [c4pA, c4pB, Epa2.Vec2.normSq, Epa2.Vec2.dot]
      norm_num [eps_tol, DEFAULT_EPSILON])]
    simp [c4pA, c4pB, Epa2.Vec2.normSq, Epa2.Vec2.dot]
    norm_num
  have hin0 : Epa2.init2Inside (Epa2.init2Verts c4pA c4pB c4pC) 0 = true := by
    rw [hvs]
    rw [Epa2.init2Inside, init2Face_zero, Epa2.Face.new]
    rw [show Epa2.vertAt [c4pA, c4pB, c4pC] (0, 1).1 = c4pA from rfl]
    rw [show Epa2.vertAt [c4pA, c4pB, c4pC] (0, 1).2 = c4pB from rfl]
    rw [hpo]
  have hsqrt4 : Real.sqrt 4 = 2 := by
    rw [show (4 : ℝ) = 2 ^ 2 by norm_num, Real.sqrt_sq (by norm_num)]
  have hccw : Epa2.ccwFaceNormal c4pA.point c4pB.point = some ⟨0, -1⟩ := by
    rw [Epa2.ccwFaceNormal, Epa2.tryNew, Epa2.tryNewAndGet]
    rw [show (⟨c4pB.point.y - c4pA.point.y, c4pA.point.x - c4pB.point.x⟩ : Epa2.Vec2) =
      ⟨0, -2⟩ by simp [c4pA, c4pB]; norm_num]
    have hn : Epa2.Vec2.norm ⟨0, -2⟩ = 2 := by
      rw [Epa2.Vec2.norm, Epa2.Vec2.normSq, Epa2.Vec2.dot]
      norm_num [hsqrt4]
    rw [hn, if_pos (by norm_num [DEFAULT_EPSILON])]
    simp
  have hnormal0 : (Epa2.Face.new [c4pA, c4pB, c4pC] (0, 1)).1.normal = ⟨0, -1⟩ := by
    rw [Epa2.Face.new]
    rw [show Epa2.vertAt [c4pA, c4pB, c4pC] (0, 1).1 = c4pA from rfl]
    rw [show Epa2.vertAt [c4pA, c4pB, c4pC] (0, 1).2 = c4pB from rfl]
    rw [hpo]
    simp only [Epa2.Face.newWithProj]
    rw [show Epa2.vertAt [c4pA, c4pB, c4pC] (0, 1).1 = c4pA from rfl]
    rw [show Epa2.vertAt [c4pA, c4pB, c4pC] (0, 1).2 = c4pB from rfl]
    rw [hccw]
  have hdist0 : -(Epa2.init2Dist (Epa2.init2Verts c4pA c4pB c4pC) 0) > eps_tol := by
    rw [hvs, Epa2.init2Dist, init2Face_zero, hnormal0]
    rw [show Epa2.vertAt [c4pA, c4pB, c4pC] 0 = c4pA from rfl]
    simp [c4pA]
    norm_num [eps_tol, DEFAULT_EPSILON]
  have hinit : Epa2.epa2Init2 c4pA c4pB c4pC = none :=
    (epa2Init2_characterization c4pA c4pB c4pC).2.1 ⟨0, by omega, hin0, hdist0⟩
  refine ⟨by rw [hpo]; rfl, hin0, hinit, ?_⟩
  rw [Epa2.closestPoints, if_neg (by norm_num [c4seedX]), if_pos (by norm_num [c4seedX])]
  rw [show c4seedX.points 0 = c4pA from rfl, show c4seedX.points 1 = c4pB from rfl,
    show c4seedX.points 2 = c4pC from rfl, hinit]

/-- Witness for C4 (amended) at a CCW triangle strictly containing the
origin: all three inside-projecting faces pass the tolerance check and the
initialization succeeds with all three faces on the heap. -/
theorem c4_witness :
    Epa2.epa2Init2 c4wA c4wB c4wC =
      some ⟨Epa2.init2Verts c4wA c4wB c4wC,
        [(Epa2.init2Face (Epa2.init2Verts c4wA c4wB c4wC) 0).1,
         (Epa2.init2Face (Epa2.init2Verts c4wA c4wB c4wC) 1).1,
         (Epa2.init2Face (Epa2.init2Verts c4wA c4wB c4wC) 2).1],
        Epa2.init2Heap (Epa2.init2Verts c4wA c4wB c4wC)⟩ := by
  have hvs : Epa2.init2Verts c4wA c4wB c4wC = [c4wA, c4wB, c4wC] := by
    rw [Epa2.init2Verts, if_neg]
    simp [Epa2.CSOPoint.sub, c4wA, c4wB, c4wC]
    norm_num
  have hsqrt4 : Real.sqrt 4 = 2 := by
    rw [show (4 : ℝ) = 2 ^ 2 by norm_num, Real.sqrt_sq (by norm_num)]
  have hs10 : (1 : ℝ) ≤ Real.sqrt 10 := by
    nlinarith [Real.sq_sqrt (show (0 : ℝ) ≤ 10 by norm_num), Real.sqrt_nonneg 10]
  have hs10n : (0 : ℝ) ≤ (Real.sqrt 10)⁻¹ := inv_nonneg.mpr (Real.sqrt_nonneg 10)
  -- face 0 : edge [wA, wB]
  have hpo0 : Epa2.projectOrigin c4wA.point c4wB.point =
      some (⟨0, -1⟩, (1 / 2, 1 / 2)) := by
    rw [Epa2.projectOrigin]
    rw [if_neg (by simp [c4wA, c4wB, Epa2.Vec2.normSq, Epa2.Vec2.dot])]
    rw [if_neg (by
      simp [c4wA, c4wB, Epa2.Vec2.normSq, Epa2.Vec2.dot]
      norm_num [eps_tol, DEFAULT_EPSILON])]
    simp [c4wA, c4wB, Epa2.Vec2.normSq, Epa2.Vec2.dot]
    norm_num
  have hin0 : Epa2.init2Inside [c4wA, c4wB, c4wC] 0 = true := by
    rw [Epa2.init2Inside, init2Face_zero, Epa2.Face.new]
    rw [show Epa2.vertAt [c4wA, c4wB, c4wC] (0, 1).1 = c4wA from rfl]
    rw [show Epa2.vertAt [c4wA, c4wB, c4wC] (0, 1).2 = c4wB from rfl]
    rw [hpo0]
  have hccw0 : Epa2.ccwFaceNormal c4wA.point c4wB.point = some ⟨0, -1⟩ := by
    rw [Epa2.ccwFaceNormal, Epa2.tryNew, Epa2.tryNewAndGet]
    rw [show (⟨c4wB.point.y - c4wA.point.y, c4wA.point.x - c4wB.point.x⟩ : Epa2.Vec2) =
      ⟨0, -2⟩ by simp [c4wA, c4wB]; norm_num]
    have hn : Epa2.Vec2.norm ⟨0, -2⟩ = 2 := by
      rw [Epa2.Vec2.norm, Epa2.Vec2.normSq, Epa2.Vec2.dot]
      norm_num [hsqrt4]
    rw [hn, if_pos (by norm_num [DEFAULT_EPSILON])]
    simp
  have hnormal0 : (Epa2.Face.new [c4wA, c4wB, c4wC] (0, 1)).1.normal = ⟨0, -1⟩ := by
    rw [Epa2.Face.new]
    rw [show Epa2.vertAt [c4wA, c4wB, c4wC] (0, 1).1 = c4wA from rfl]
    rw [show Epa2.vertAt [c4wA, c4wB, c4wC] (0, 1).2 = c4wB from rfl]
    rw [hpo0]
    simp only [Epa2.Face.newWithProj]
    rw [show Epa2.vertAt [c4wA, c4wB, c4wC] (0, 1).1 = c4wA from rfl]
    rw [show Epa2.vertAt [c4wA, c4wB, c4wC] (0, 1).2 = c4wB from rfl]
    rw [hccw0]
  have hok0 : -(Epa2.init2Dist [c4wA, c4wB, c4wC] 0) ≤ eps_tol := by
    rw [Epa2.init2Dist, init2Face_zero, hnormal0]
    rw [show Epa2.vertAt [c4wA, c4wB, c4wC] 0 = c4wA from rfl]
    simp [c4wA]
    norm_num [eps_tol, DEFAULT_EPSILON]
  -- face 1 : edge [wB, wC]
  have hpo1 : Epa2.projectOrigin c4wB.point c4wC.point =
      some (⟨3 / 5, 1 / 5⟩, (3 / 5, 2 / 5)) := by
    rw [Epa2.projectOrigin]
    rw [if_neg (by
      simp [c4wB, c4wC, Epa2.Vec2.normSq, Epa2.Vec2.dot]
      norm_num)]
    rw [if_neg (by
      simp [c4wB, c4wC, Epa2.Vec2.normSq, Epa2.Vec2.dot]
      norm_num [eps_tol, DEFAULT_EPSILON])]
    simp [c4wB, c4wC, Epa2.Vec2.normSq, Epa2.Vec2.dot]
    norm_num
  have hccw1 : Epa2.ccwFaceNormal c4wB.point c4wC.point =
      some ((Real.sqrt 10)⁻¹ • ⟨3, 1⟩) := by
    rw [Epa2.ccwFaceNormal, Epa2.tryNew, Epa2.tryNewAndGet]
    rw [show (⟨c4wC.point.y - c4wB.point.y, c4wB.point.x - c4wC.point.x⟩ : Epa2.Vec2) =
      ⟨3, 1⟩ by simp [c4wB, c4wC]; norm_num]
    have hn : Epa2.Vec2.norm ⟨3, 1⟩ = Real.sqrt 10 := by
      rw [Epa2.Vec2.norm, Epa2.Vec2.normSq, Epa2.Vec2.dot]
      norm_num
    rw [hn, if_pos (by norm_num [DEFAULT_EPSILON]; linarith)]
    simp
  have hnormal1 : (Epa2.Face.new [c4wA, c4wB, c4wC] (1, 2)).1.normal =
      (Real.sqrt 10)⁻¹ • ⟨3, 1⟩ := by
    rw [Epa2.Face.new]
    rw [show Epa2.vertAt [c4wA, c4wB, c4wC] (1, 2).1 = c4wB from rfl]
    rw [show Epa2.vertAt [c4wA, c4wB, c4wC] (1, 2).2 = c4wC from rfl]
    rw [hpo1]
    simp only [Epa2.Face.newWithProj]
    rw [show Epa2.vertAt [c4wA, c4wB, c4wC] (1, 2).1 = c4wB from rfl]
    rw [show Epa2.vertAt [c4wA, c4wB, c4wC] (1, 2).2 = c4wC from rfl]
    rw [hccw1]
  have hok1 : -(Epa2.init2Dist [c4wA, c4wB, c4wC] 1) ≤ eps_tol := by
    rw [Epa2.init2Dist, init2Face_one, hnormal1]
    rw [show Epa2.vertAt [c4wA, c4wB, c4wC] 1 = c4wB from rfl]
    simp [c4wB]
    nlinarith [hs10n, eps_tol_pos]
  -- face 2 : edge [wC, wA]
  have hpo2 : Epa2.projectOrigin c4wC.point c4wA.point =
      some (⟨-(3 / 5), 1 / 5⟩, (2 / 5, 3 / 5)) := by
    rw [Epa2.projectOrigin]
    rw [if_neg (by
      simp [c4wC, c4wA, Epa2.Vec2.normSq, Epa2.Vec2.dot]
      norm_num)]
    rw [if_neg (by
      simp [c4wC, c4wA, Epa2.Vec2.normSq, Epa2.Vec2.dot]
      norm_num [eps_tol, DEFAULT_EPSILON])]
    simp [c4wC, c4wA, Epa2.Vec2.normSq, Epa2.Vec2.dot]
    norm_num
  have hccw2 : Epa2.ccwFaceNormal c4wC.point c4wA.point =
      some ((Real.sqrt 10)⁻¹ • ⟨-3, 1⟩) := by
    rw [Epa2.ccwFaceNormal, Epa2.tryNew, Epa2.tryNewAndGet]
    rw [show (⟨c4wA.point.y - c4wC.point.y, c4wC.point.x - c4wA.point.x⟩ : Epa2.Vec2) =
      ⟨-3, 1⟩ by simp [c4wC, c4wA]; norm_num]
    have hn : Epa2.Vec2.norm ⟨-3, 1⟩ = Real.sqrt 10 := by
      rw [Epa2.Vec2.norm, Epa2.Vec2.normSq, Epa2.Vec2.dot]
      norm_num
    rw [hn, if_pos (by norm_num [DEFAULT_EPSILON]; linarith)]
    simp
  have hnormal2 : (Epa2.Face.new [c4wA, c4wB, c4wC] (2, 0)).1.normal =
      (Real.sqrt 10)⁻¹ • ⟨-3, 1⟩ := by
    rw [Epa2.Face.new]
    rw [show Epa2.vertAt [c4wA, c4wB, c4wC] (2, 0).1 = c4wC from rfl]
    rw [show Epa2.vertAt [c4wA, c4wB, c4wC] (2, 0).2 = c4wA from rfl]
    rw [hpo2]
    simp only [Epa2.Face.newWithProj]
    rw [show Epa2.vertAt [c4wA, c4wB, c4wC] (2, 0).1 = c4wC from rfl]
    rw [show Epa2.vertAt [c4wA, c4wB, c4wC] (2, 0).2 = c4wA from rfl]
    rw [hccw2]
  have hok2 : -(Epa2.init2Dist [c4wA, c4wB, c4wC] 2) ≤ eps_tol := by
    rw [Epa2.init2Dist, init2Face_two, hnormal2]
    rw [show Epa2.vertAt [c4wA, c4wB, c4wC] 2 = c4wC from rfl]
    simp [c4wC]
    nlinarith [hs10n, eps_tol_pos]
  have hall : ∀ i, i < 3 →
      Epa2.init2Inside (Epa2.init2Verts c4wA c4wB c4wC) i = true →
      -(Epa2.init2Dist (Epa2.init2Verts c4wA c4wB c4wC) i) ≤ eps_tol := by
    rw [hvs]
    intro i hi _
    interval_cases i
    · exact hok0
    · exact hok1
    · exact hok2
  have hex : ∃ i, i < 3 ∧
      Epa2.init2Inside (Epa2.init2Verts c4wA c4wB c4wC) i = true :=
    ⟨0, by omega, by rw [hvs]; exact hin0⟩
  exact (c4_epa2_dim2_init g1s0 g2s0 cso0 c4seedW rfl).2.1 hall hex

/-- Witness for C6 at a fresh simplex (dimension 0) with vertex-reporting
primitives. -/
theorem c6_witness :
    projListSum (VoronoiSimplex.projectOriginAndReduce prims0 VoronoiSimplex.new).2 = 1 ∧
    ∀ i ≤ (VoronoiSimplex.projectOriginAndReduce prims0 VoronoiSimplex.new).2.dim,
      0 ≤ VoronoiSimplex.projAt
        (VoronoiSimplex.projectOriginAndReduce prims0 VoronoiSimplex.new).2 i :=
  c6_barycentric_partition prims0 VoronoiSimplex.new (by norm_num [VoronoiSimplex.new])
    (by intro h; simp [VoronoiSimplex.new] at h)
    (by intro h; simp [VoronoiSimplex.new] at h)
    (by intro h; simp [VoronoiSimplex.new] at h)

theorem visitLanes_exit_unique (dispatch : ℕ → Option ℝ) (best : ℝ)
    (active : Fin 4 → Bool) (data : Fin 4 → Option ℕ) (ii : Fin 4) (pid : ℕ)
    (hz : Bvh.laneZero dispatch active data ii) (hpid : data ii = some pid) :
    ∀ (l : List (Fin 4)) (w : Fin 4 → ℝ) (m : Fin 4 → Bool) (r : Fin 4 → Option (ℕ × ℝ)),
      ii ∈ l → (∀ jj ∈ l, jj ≠ ii → ¬ Bvh.laneZero dispatch active data jj) →
      Bvh.visitLanes dispatch best active data l w m r = .ExitEarly (some (pid, 0)) := by
  intro l
  induction l with
  | nil => intro w m r hmem _; simp at hmem
  | cons a rest ih =>
    intro w m r hmem huniq
    by_cases hai : a = ii
    · subst hai
      obtain ⟨hact, pid2, hdata, hdisp⟩ := hz
      rw [hpid] at hdata
      injection hdata with hp
      subst hp
      rw [Bvh.visitLanes]
      simp [hact, hpid, hdisp]
    · have hna : ¬ Bvh.laneZero dispatch active data a :=
        huniq a (List.mem_cons_self a rest) hai
      have hmem2 : ii ∈ rest := by
        rcases List.mem_cons.mp hmem with h | h
        · exact absurd h.symm hai
        · exact h
      have huniq2 : ∀ jj ∈ rest, jj ≠ ii → ¬ Bvh.laneZero dispatch active data jj :=
        fun jj hjj => huniq jj (List.mem_cons_of_mem _ hjj)
      rw [Bvh.visitLanes]
      rcases ha : active a
      · simp only [ha]
        exact ih w m r hmem2 huniq2
      · rcases hd : data a with _ | pid3
        · simp only [ha, hd]
          exact ih w m r hmem2 huniq2
        · rcases hdp : dispatch pid3 with _ | d
          · simp only [ha, hd, hdp]
            exact ih w m r hmem2 huniq2
          · have hdz : ¬ d = 0 := fun h0 => hna ⟨ha, pid3, hd, by rw [hdp, h0]⟩
            simp only [ha, hd, hdp, hdz, if_false]
            exact ih _ _ _ hmem2 huniq2

theorem visitLanes_no_zero (dispatch : ℕ → Option ℝ) (best : ℝ)
    (active : Fin 4 → Bool) (data : Fin 4 → Option ℕ) :
    ∀ (l : List (Fin 4)) (w : Fin 4 → ℝ) (m : Fin 4 → Bool) (r : Fin 4 → Option (ℕ × ℝ)),
      l.Nodup →
      (∀ ii ∈ l, ¬ Bvh.laneZero dispatch active data ii) →
      ∃ w2 m2 r2,
        Bvh.visitLanes dispatch best active data l w m r = .MaybeContinue w2 m2 r2 ∧
        (∀ ii ∈ l, ∀ pid d, active ii = true → data ii = some pid → dispatch pid = some d →
          w2 ii = d ∧ m2 ii = decide (d < best) ∧ r2 ii = some (pid, d)) ∧
        (∀ ii, ii ∉ l → w2 ii = w ii ∧ m2 ii = m ii ∧ r2 ii = r ii) := by
  intro l
  induction l with
  | nil =>
    intro w m r _ _
    exact ⟨w, m, r, rfl, by simp, fun ii _ => ⟨rfl, rfl, rfl⟩⟩
  | cons a rest ih =>
    intro w m r hnd hnz
    have hnda : a ∉ rest := (List.nodup_cons.mp hnd).1
    have hndr : rest.Nodup := (List.nodup_cons.mp hnd).2
    have hnzr : ∀ ii ∈ rest, ¬ Bvh.laneZero dispatch active data ii :=
      fun ii hii => hnz ii (List.mem_cons_of_mem _ hii)
    rcases ha : active a
    · obtain ⟨w2, m2, r2, heq, hin, hout⟩ := ih w m r hndr hnzr
      refine ⟨w2, m2, r2, ?_, ?_, ?_⟩
      · rw [Bvh.visitLanes]
        simp only [ha]
        exact heq
      · intro ii hii pid d hact hdata hdisp
        rcases List.mem_cons.mp hii with h | hmm
        · subst h; rw [ha] at hact; cases hact
        · exact hin ii hmm pid d hact hdata hdisp
      · intro ii hii
        exact hout ii (fun hmm => hii (List.mem_cons_of_mem _ hmm))
    · rcases hd : data a with _ | pid3
      · obtain ⟨w2, m2, r2, heq, hin, hout⟩ := ih w m r hndr hnzr
        refine ⟨w2, m2, r2, ?_, ?_, ?_⟩
        · rw [Bvh.visitLanes]
          simp only [ha, hd]
          exact heq
        · intro ii hii pid d hact hdata hdisp
          rcases List.mem_cons.mp hii with h | hmm
          · subst h; rw [hd] at hdata; cases hdata
          · exact hin ii hmm pid d hact hdata hdisp
        · intro ii hii
          exact hout ii (fun hmm => hii (List.mem_cons_of_mem _ hmm))
      · rcases hdp : dispatch pid3 with _ | d
        · obtain ⟨w2, m2, r2, heq, hin, hout⟩ := ih w m r hndr hnzr
          refine ⟨w2, m2, r2, ?_, ?_, ?_⟩
          · rw [Bvh.visitLanes]
            simp only [ha, hd, hdp]
            exact heq
          · intro ii hii pid d hact hdata hdisp
            rcases List.mem_cons.mp hii with h | hmm
            · subst h
              rw [hd] at hdata
              injection hdata with hp
              subst hp
              rw [hdp] at hdisp
              cases hdisp
            · exact hin ii hmm pid d hact hdata hdisp
          · intro ii hii
            exact hout ii (fun hmm => hii (List.mem_cons_of_mem _ hmm))
        · have hdz : ¬ d = 0 := fun h0 =>
            hnz a (List.mem_cons_self a rest) ⟨ha, pid3, hd, by rw [hdp, h0]⟩
          obtain ⟨w2, m2, r2, heq, hin, hout⟩ :=
            ih (Function.update w a d) (Function.update m a (decide (d < best)))
              (Function.update r a (some (pid3, d))) hndr hnzr
          refine ⟨w2, m2, r2, ?_, ?_, ?_⟩
          · rw [Bvh.visitLanes]
            simp only [ha, hd, hdp, hdz, if_false]
            exact heq
          · intro ii hii pid d2 hact hdata hdisp
            rcases List.mem_cons.mp hii with h | hmm
            · subst h
              rw [hd] at hdata
              injection hdata with hp
              subst hp
              rw [hdp] at hdisp
              injection hdisp with hdd
              subst hdd
              obtain ⟨hw, hm, hr⟩ := hout ii hnda
              rw [hw, hm, hr]
              simp [Function.update_same]
            · exact hin ii hmm pid d2 hact hdata hdisp
          · intro ii hii
            have hnm : ii ∉ rest := fun hmm => hii (List.mem_cons_of_mem _ hmm)
            have hia : ii ≠ a := fun h => hii (h ▸ List.mem_cons_self a rest)
            obtain ⟨hw, hm, hr⟩ := hout ii hnm
            rw [hw, hm, hr]
            simp [Function.update_noteq hia]

/-- C8: in the composite-vs-shape distance visitor's `visit` at a leaf, a
part whose dispatched distance is zero triggers `ExitEarly((part_id, 0))`
(the first such active lane); otherwise, for every visited part with
reported distance `d`, the lane weight is set to `d`, the lane mask bit is
set iff `d < best`, and the payload `(part_id, d)` is recorded. -/
theorem c8_visitor_leaf (dispatch : ℕ → Option ℝ) (dto : Bvh.SimdAabb → Fin 4 → ℝ)
    (msumShift msumMargin : Vec3) (best : ℝ) (bv : Bvh.SimdAabb)
    (dataFn : Fin 4 → Option ℕ) (active : Fin 4 → Bool)
    (hactive : active = fun i =>
      decide (dto ⟨fun i => bv.mins i + msumShift + (-msumMargin),
        fun i => bv.maxs i + msumShift + msumMargin⟩ i < best)) :
    (∀ (ii : Fin 4) (pid : ℕ), Bvh.laneZero dispatch active dataFn ii →
      (∀ jj, jj ≠ ii → ¬ Bvh.laneZero dispatch active dataFn jj) →
      dataFn ii = some pid →
      Bvh.visit dispatch dto msumShift msumMargin best bv (some dataFn) =
        .ExitEarly (some (pid, 0))) ∧
    ((∀ ii, ¬ Bvh.laneZero dispatch active dataFn ii) →
      Bvh.isCont (Bvh.visit dispatch dto msumShift msumMargin best bv (some dataFn)) = true ∧
      (∀ (ii : Fin 4) (pid : ℕ) (d : ℝ),
        active ii = true → dataFn ii = some pid → dispatch pid = some d →
        Bvh.weightsOf (Bvh.visit dispatch dto msumShift msumMargin best bv (some dataFn)) ii = d ∧
        Bvh.maskOf (Bvh.visit dispatch dto msumShift msumMargin best bv (some dataFn)) ii =
          decide (d < best) ∧
        Bvh.resultsOf (Bvh.visit dispatch dto msumShift msumMargin best bv (some dataFn)) ii =
          some (pid, d))) := by
  subst hactive
  have hv : Bvh.visit dispatch dto msumShift msumMargin best bv (some dataFn) =
      Bvh.visitLanes dispatch best
        (fun i => decide (dto ⟨fun i => bv.mins i + msumShift + (-msumMargin),
          fun i => bv.maxs i + msumShift + msumMargin⟩ i < best))
        dataFn [0, 1, 2, 3] (fun _ => 0) (fun _ => false) (fun _ => none) := rfl
  have hmemAll : ∀ jj : Fin 4, jj ∈ ([0, 1, 2, 3] : List (Fin 4)) := by decide
  constructor
  · intro ii pid hz huni hdata
    rw [hv]
    exact visitLanes_exit_unique dispatch best _ dataFn ii pid hz hdata [0, 1, 2, 3]
      _ _ _ (hmemAll ii) (fun jj _ hne => huni jj hne)
  · intro hnz
    obtain ⟨w2, m2, r2, heq, hin, _⟩ := visitLanes_no_zero dispatch best _ dataFn
      [0, 1, 2, 3] (fun _ => 0) (fun _ => false) (fun _ => none) (by decide)
      (fun ii _ => hnz ii)
    rw [hv, heq]
    refine ⟨rfl, ?_⟩
    intro ii pid d hact hdata hdisp
    exact hin ii (hmemAll ii) pid d hact hdata hdisp

/-- Witness for C8: with one lane dispatching distance 0 the visitor exits
early with that part; with nonzero distances the lanes carry the weights,
mask bits and payloads. -/
theorem c8_witness :
    Bvh.visit dispatchZ dto0 0 0 10 aabb0 (some data0) = .ExitEarly (some (7, 0)) ∧
    Bvh.weightsOf (Bvh.visit dispatch0 dto0 0 0 10 aabb0 (some data0)) 0 = 5 ∧
    Bvh.maskOf (Bvh.visit dispatch0 dto0 0 0 10 aabb0 (some data0)) 0 =
      decide ((5 : ℝ) < 10) ∧
    Bvh.resultsOf (Bvh.visit dispatch0 dto0 0 0 10 aabb0 (some data0)) 0 = some (7, 5) := by
  have hactT : ∀ i : Fin 4,
      (fun i => decide (dto0 ⟨fun i => aabb0.mins i + 0 + (-0),
        fun i => aabb0.maxs i + 0 + 0⟩ i < 10)) i = true := by
    intro i
    simp [dto0]
  constructor
  · refine (c8_visitor_leaf dispatchZ dto0 0 0 10 aabb0 data0 _ rfl).1 0 7
      ⟨hactT 0, 7, rfl, by simp [dispatchZ]⟩ ?_ rfl
    intro jj hne hz
    obtain ⟨hact, pid, hdata, hdisp⟩ := hz
    fin_cases jj <;> simp_all [data0, dispatchZ]
  · have hnz : ∀ ii, ¬ Bvh.laneZero dispatch0
        (fun i => decide (dto0 ⟨fun i => aabb0.mins i + 0 + (-0),
          fun i => aabb0.maxs i + 0 + 0⟩ i < 10)) data0 ii := by
      intro ii ⟨hact, pid, hdata, hdisp⟩
      fin_cases ii <;> simp_all [data0, dispatch0] <;> subst hdata <;> simp_all
    obtain ⟨_, hlane⟩ := (c8_visitor_leaf dispatch0 dto0 0 0 10 aabb0 data0 _ rfl).2 hnz
    exact hlane 0 7 5 (hactT 0) rfl (by norm_num [dispatch0])

end Parry
